import Mathlib

/-!
# DeepStream / TorchScript bridge (`ds_trt_tsc_bridge.cpp`)

A shallow embedding of the post-processing callback of the bridge plugin:
`split`, `toTorchType`, `DeviceState`, `DsTrtTscPostProcess` and the two entry
points `DsTrtTscBridgeHost` and `DsTrtTscBridgeDevice`.

Conventions of the embedding.

* `uint32_t` / `unsigned int` values are natural numbers; every store into such
  a variable is reduced modulo `2 ^ 32`.
* A C++ function that does not return normally (undefined behaviour such as an
  out-of-range `operator[]`, a thrown exception, a loop that cannot terminate)
  returns `none`.
* Function-local `static` variables are passed in and returned explicitly.
* Text written to `std::cout` is returned as a list of `LogEvent`s.
* The tensor runtime (`torch::jit::load`, `Module::forward`) and the process
  environment are parameters.
-/

namespace DsTrtTscBridge

/-! ## Constants -/

def outputLayerIndex : Nat := 0

def fpsFramePeriod : Nat := 128

/-- Number of values of a `uint32_t`. -/
def uint32Size : Nat := 2 ^ 32

/-! ## `split` -/

/-- Characters of the stream up to the first `delimiter` (the token) and the
characters after that delimiter (what is left in the stream). At end of input
the token is everything that was read. -/
def readToken (delimiter : Char) : List Char → List Char × List Char
  | [] => ([], [])
  | c :: cs =>
    if c = delimiter then ([], cs)
    else ((c :: (readToken delimiter cs).1), (readToken delimiter cs).2)

/-- Behaviour of `std::getline(stream, token, delimiter)`: it fails (the stream
converts to `false`) exactly when no character at all could be extracted, i.e.
when the stream is already at its end; otherwise it yields the token and the
remaining stream, the delimiter being extracted and dropped. -/
def getline (delimiter : Char) (stream : List Char) : Option (List Char × List Char) :=
  match stream with
  | [] => none
  | _ :: _ => some (readToken delimiter stream)

/-- The loop `while (std::getline(tokenStream, token, delimiter)) tokens.push_back(token);`
run for at most `fuel` iterations. -/
def splitLoop (delimiter : Char) : Nat → List Char → List String → List String
  | 0, _, tokens => tokens
  | fuel + 1, stream, tokens =>
    match getline delimiter stream with
    | none => tokens
    | some (token, rest) => splitLoop delimiter fuel rest (tokens ++ [String.mk token])

/-- Embedding of `split(s, delimiter)`. Every successful `getline` consumes at
least one character, so `s.length + 1` iterations always reach the failing
`getline` that ends the loop (see `splitLoop_spec`, which holds for every
amount of fuel above the length of the stream). -/
def split (s : String) (delimiter : Char) : List String :=
  splitLoop delimiter (s.length + 1) s.data []

/-! ## Host and tensor-runtime types -/

/-- Modelled from the spec: the host's `NvDsInferDataType` enumeration
(declared in `nvdsinfer.h`, which is not part of the sources); the four data
types a layer can report. -/
inductive NvDsInferDataType
  | FLOAT
  | HALF
  | INT8
  | INT32
  deriving DecidableEq, Repr

/-- Modelled from the spec: the scalar types of the tensor runtime
(`torch::ScalarType`, declared in the runtime's headers). -/
inductive ScalarType
  | kUInt8
  | kInt8
  | kInt16
  | kInt32
  | kInt64
  | kFloat16
  | kFloat32
  | kFloat64
  deriving DecidableEq, Repr

/-- Kind of the elements of a buffer. -/
inductive ElementKind
  | floating
  | integer
  deriving DecidableEq, Repr

/-- Modelled from the spec: element kind of a host data type (FLOAT and HALF
are floating point, INT8 and INT32 are integers). -/
def NvDsInferDataType.kind : NvDsInferDataType → ElementKind
  | FLOAT => ElementKind.floating
  | HALF => ElementKind.floating
  | INT8 => ElementKind.integer
  | INT32 => ElementKind.integer

/-- Modelled from the spec: element width in bits of a host data type. -/
def NvDsInferDataType.bits : NvDsInferDataType → Nat
  | FLOAT => 32
  | HALF => 16
  | INT8 => 8
  | INT32 => 32

/-- Modelled from the spec: element kind of a runtime scalar type. -/
def ScalarType.kind : ScalarType → ElementKind
  | kUInt8 => ElementKind.integer
  | kInt8 => ElementKind.integer
  | kInt16 => ElementKind.integer
  | kInt32 => ElementKind.integer
  | kInt64 => ElementKind.integer
  | kFloat16 => ElementKind.floating
  | kFloat32 => ElementKind.floating
  | kFloat64 => ElementKind.floating

/-- Modelled from the spec: element width in bits of a runtime scalar type. -/
def ScalarType.bits : ScalarType → Nat
  | kUInt8 => 8
  | kInt8 => 8
  | kInt16 => 16
  | kInt32 => 32
  | kInt64 => 64
  | kFloat16 => 16
  | kFloat32 => 32
  | kFloat64 => 64

/-- Embedding of `toTorchType`. -/
def toTorchType (nvdsType : NvDsInferDataType) : ScalarType :=
  if nvdsType = NvDsInferDataType.HALF then ScalarType.kFloat16
  else if nvdsType = NvDsInferDataType.INT8 then ScalarType.kUInt8
  else ScalarType.kFloat32

/-- Modelled from the spec: `NvDsInferDims` of `nvdsinfer.h`; `d` is the
fixed-size array of dimension sizes, of which the first `numDims` are used. -/
structure NvDsInferDims where
  numDims : Nat
  d : List Nat
  numElements : Nat
  deriving DecidableEq, Repr

/-- Modelled from the spec: the layer descriptor `NvDsInferLayerInfo` (name,
data type, shape, and the address of the raw buffer). -/
structure NvDsInferLayerInfo where
  dataType : NvDsInferDataType
  inferDims : NvDsInferDims
  bindingIndex : Int
  layerName : String
  buffer : Nat
  isInput : Bool
  deriving DecidableEq, Repr

inductive DeviceType
  | CPU
  | CUDA
  deriving DecidableEq, Repr

/-- Modelled from the spec: `torch::Device`, a device type and an index; the
index is `-1` when none is given, as in `torch::Device(torch::kCPU)`. Two
devices are equal when type and index are. -/
structure Device where
  type : DeviceType
  index : Int
  deriving DecidableEq, Repr

/-- The value `torch::kCPU` converts to: the "uninitialized device" sentinel. -/
def Device.kCPU : Device := ⟨DeviceType.CPU, -1⟩

/-- The device `torch::Device(torch::kCUDA, gpuId)`. -/
def Device.cuda (gpuId : Nat) : Device := ⟨DeviceType.CUDA, gpuId⟩

/-- A stream of the runtime's pool: its priority class and device index
(`-1` for the current device). -/
structure CUDAStream where
  isHighPriority : Bool
  device : Int
  deriving DecidableEq, Repr

def getStreamFromPool (isHighPriority : Bool) (device : Int) : CUDAStream :=
  ⟨isHighPriority, device⟩

/-- A loaded script module: the path it was loaded from and the device it
lives on. The default-constructed module has the empty path. -/
structure Module where
  path : String
  device : Device
  deriving DecidableEq, Repr

def Module.to (m : Module) (device : Device) : Module :=
  { m with device := device }

/-- A tensor, as far as the bridge can tell: the address of the raw buffer its
data was read from, the scalar type and device under which that buffer was
read, its shape, and its current scalar type and device. -/
structure Tensor where
  blob : Nat
  blobType : ScalarType
  blobDevice : Device
  sizes : List Nat
  dtype : ScalarType
  device : Device
  deriving DecidableEq, Repr

/-- The view `torch::from_blob(buffer, dims, torch::dtype(t).device(dev))`. -/
def from_blob (buffer : Nat) (dims : List Nat) (dtype : ScalarType) (device : Device) : Tensor :=
  { blob := buffer, blobType := dtype, blobDevice := device,
    sizes := dims, dtype := dtype, device := device }

/-- The copy `t.to(device, dtype, non_blocking, copy).contiguous()`. -/
def Tensor.to (t : Tensor) (device : Device) (dtype : ScalarType) : Tensor :=
  { t with dtype := dtype, device := device }

/-- Values exchanged with a script module. -/
inductive IValue
  | None
  | Tensor (t : Tensor)
  | Tuple (elements : List IValue)

/-- The tensor runtime, as used by the bridge: `load` is `torch::jit::load`
(`none` when it throws) and `forward` is `Module::forward` (`none` when it
throws). -/
structure TorchRuntime where
  load : String → Option Module
  forward : Module → List IValue → Option IValue

/-- The two environment variables read at initialization; `none` when the
variable is unset (`std::getenv` returns a null pointer). -/
structure Environment where
  DS_TSC_PTH_PATH : Option String
  DS_TSC_INPUTS : Option String
  deriving DecidableEq, Repr

/-- A line written to `std::cout`. The `fps` figure of the statistics line is
a floating-point quotient over wall-clock time; the line records the elapsed
time it is computed from. -/
inductive LogEvent
  | loading (modelPath : String)
  | stats (gpuId : Int) (bufferCount frames detections : Nat) (elapsed : Int)
  deriving DecidableEq, Repr

/-- Embedding of `struct DeviceState`. -/
structure DeviceState where
  hasDummyDim : Bool
  bufferCount : Nat
  profileFrameCount : Nat
  detections : Nat
  start : Int
  sourceDevice : Device
  device : Device
  stream : CUDAStream
  model : Module
  inputLayerIndexes : List Nat
  inputLayerTypes : List ScalarType
  deriving DecidableEq, Repr

/-- The default-constructed `DeviceState` (the member initializers of the
struct), created at wall-clock time `now`. -/
def DeviceState.fresh (now : Int) : DeviceState :=
  { hasDummyDim := false
    bufferCount := 0
    profileFrameCount := 0
    detections := 0
    start := now
    sourceDevice := Device.kCPU
    device := Device.kCPU
    stream := getStreamFromPool false (-1)
    model := ⟨"", Device.kCPU⟩
    inputLayerIndexes := []
    inputLayerTypes := [] }

/-- What a call leaves behind: the device state, the four objects the caller
passed by reference as they are after the call, the text written to
`std::cout`, and the returned boolean. The types of the network info, of the
detection params and of the detection objects are the host's and are left
abstract. -/
structure Outcome (NI DP OI : Type) where
  state : DeviceState
  batchOutputLayersInfo : List NvDsInferLayerInfo
  networkInfo : NI
  detectionParams : DP
  batchObjectList : List OI
  stdout : List LogEvent
  ret : Bool
  deriving DecidableEq

/-! ## `DsTrtTscPostProcess` -/

/-- The frame count of a call (lines 77-80): `1`, or `inferDims.d[0]` of layer
0 when the state has a dummy dimension. Indexing past the end of the layer
list or of `d` is undefined. -/
def readBatchDim (state : DeviceState) (batchOutputLayersInfo : List NvDsInferLayerInfo) :
    Option Nat :=
  if state.hasDummyDim then
    match batchOutputLayersInfo[0]? with
    | none => none
    | some layer =>
      match layer.inferDims.d[0]? with
      | none => none
      | some d0 => some (d0 % uint32Size)
  else some 1

/-- The loop of line 88: `dims` after `numDims` iterations of
`dims.push_back(layer.inferDims.d[d])`. -/
def collectDims (d : List Nat) : Nat → Option (List Nat)
  | 0 => some []
  | k + 1 =>
    match collectDims d k with
    | none => none
    | some dims =>
      match d[k]? with
      | none => none
      | some v => some (dims ++ [v])

/-- The loop of lines 84-112: `inputTensors` after `count` iterations. For
each registered input, the layer is looked up by its stored index, its buffer
is viewed under the stored scalar type on the source device, and the view is
copied to the compute device as `kFloat32`. -/
def gatherInputs (state : DeviceState) (batchOutputLayersInfo : List NvDsInferLayerInfo) :
    Nat → Option (List IValue)
  | 0 => some []
  | inputIndex + 1 =>
    match gatherInputs state batchOutputLayersInfo inputIndex with
    | none => none
    | some inputTensors =>
      match state.inputLayerIndexes[inputIndex]? with
      | none => none
      | some layerIndex =>
        match batchOutputLayersInfo[layerIndex]? with
        | none => none
        | some layer =>
          match collectDims layer.inferDims.d layer.inferDims.numDims with
          | none => none
          | some dims =>
            match state.inputLayerTypes[inputIndex]? with
            | none => none
            | some dtype =>
              let source_nchw := from_blob layer.buffer dims dtype state.sourceDevice
              some (inputTensors ++
                [IValue.Tensor (source_nchw.to state.device ScalarType.kFloat32)])

/-- The expression `result->elements()[0].toTensor().sizes()[0]` of line 129,
for `result = forward(...).toTuple()`: defined when the value is a tuple whose
first element is a tensor with at least one dimension. -/
def firstOutputDim : IValue → Option Nat
  | IValue.Tuple (IValue.Tensor t :: _) => t.sizes[0]?
  | _ => none

/-- Embedding of `DsTrtTscPostProcess`; `now` is the reading of the system
clock during the call. The loop counter `inputIndex` is a `uint32_t`, so the
loop over the registered inputs only ends when there are fewer than `2 ^ 32`
of them. -/
def DsTrtTscPostProcess {NI DP OI : Type} (torch : TorchRuntime) (now : Int)
    (state : DeviceState) (batchOutputLayersInfo : List NvDsInferLayerInfo)
    (networkInfo : NI) (detectionParams : DP) (batchObjectList : List OI) :
    Option (Outcome NI DP OI) :=
  match readBatchDim state batchOutputLayersInfo with
  | none => none
  | some batchDim =>
    if uint32Size ≤ state.inputLayerIndexes.length then none
    else
      match gatherInputs state batchOutputLayersInfo state.inputLayerIndexes.length with
      | none => none
      | some inputTensors =>
        match torch.forward state.model inputTensors with
        | none => none
        | some result =>
          match firstOutputDim result with
          | none => none
          | some n =>
            let detections := (state.detections + n) % uint32Size
            if fpsFramePeriod ≤ state.profileFrameCount then
              some
                { state :=
                    { state with
                      detections := 0
                      start := now
                      bufferCount := (state.bufferCount + 1) % uint32Size
                      profileFrameCount := (0 + batchDim) % uint32Size }
                  batchOutputLayersInfo := batchOutputLayersInfo
                  networkInfo := networkInfo
                  detectionParams := detectionParams
                  batchObjectList := batchObjectList
                  stdout :=
                    [LogEvent.stats state.device.index state.bufferCount
                      state.profileFrameCount detections (now - state.start)]
                  ret := true }
            else
              some
                { state :=
                    { state with
                      detections := detections
                      bufferCount := (state.bufferCount + 1) % uint32Size
                      profileFrameCount := (state.profileFrameCount + batchDim) % uint32Size }
                  batchOutputLayersInfo := batchOutputLayersInfo
                  networkInfo := networkInfo
                  detectionParams := detectionParams
                  batchObjectList := batchObjectList
                  stdout := []
                  ret := true }

/-! ## Initialization and the two entry points -/

/-- The nested loop of lines 171-178 and 218-225: for each expected input
name, in order, and for each layer index from `0` up, the index and the
translated data type of every layer of that name are appended to the state. -/
def resolveInputLayers (inputLayerNames : List String)
    (batchOutputLayersInfo : List NvDsInferLayerInfo) (state : DeviceState) : DeviceState :=
  inputLayerNames.foldl
    (fun st inputName =>
      (List.range batchOutputLayersInfo.length).foldl
        (fun st layerIndex =>
          match batchOutputLayersInfo[layerIndex]? with
          | none => st
          | some layer =>
            if inputName = layer.layerName then
              { st with
                inputLayerIndexes := st.inputLayerIndexes ++ [layerIndex]
                inputLayerTypes := st.inputLayerTypes ++ [toTorchType layer.dataType] }
            else st)
        st)
    state

/-- The initialization block of `DsTrtTscBridgeHost` (lines 158-180), with the
line it writes to `std::cout`. An unset environment variable and a model that
fails to load keep the block from completing, and so does, when there is a
name to resolve, a layer list too long for the `uint32_t` loop counter
`layerIndex` to reach its end. -/
def initHost (torch : TorchRuntime) (env : Environment) (now : Int) (gpuId : Nat)
    (state : DeviceState) (batchOutputLayersInfo : List NvDsInferLayerInfo) :
    Option (DeviceState × List LogEvent) :=
  match env.DS_TSC_PTH_PATH with
  | none => none
  | some prefixPath =>
    let modelPath := prefixPath ++ toString gpuId
    match torch.load modelPath with
    | none => none
    | some model =>
      match env.DS_TSC_INPUTS with
      | none => none
      | some inputs =>
        if split inputs ',' ≠ [] ∧ uint32Size ≤ batchOutputLayersInfo.length then none
        else
          let state1 : DeviceState :=
            { state with
              device := Device.cuda gpuId
              sourceDevice := Device.kCPU
              stream := getStreamFromPool true gpuId
              hasDummyDim := false
              model := model.to (Device.cuda gpuId) }
          let state2 := resolveInputLayers (split inputs ',') batchOutputLayersInfo state1
          some ({ state2 with start := now }, [LogEvent.loading modelPath])

/-- The initialization block of `DsTrtTscBridgeDevice` (lines 205-227); it
differs from the host one in the source device and in `hasDummyDim`. -/
def initDevice (torch : TorchRuntime) (env : Environment) (now : Int) (gpuId : Nat)
    (state : DeviceState) (batchOutputLayersInfo : List NvDsInferLayerInfo) :
    Option (DeviceState × List LogEvent) :=
  match env.DS_TSC_PTH_PATH with
  | none => none
  | some prefixPath =>
    let modelPath := prefixPath ++ toString gpuId
    match torch.load modelPath with
    | none => none
    | some model =>
      match env.DS_TSC_INPUTS with
      | none => none
      | some inputs =>
        if split inputs ',' ≠ [] ∧ uint32Size ≤ batchOutputLayersInfo.length then none
        else
          let state1 : DeviceState :=
            { state with
              device := Device.cuda gpuId
              sourceDevice := Device.cuda gpuId
              stream := getStreamFromPool true gpuId
              hasDummyDim := true
              model := model.to (Device.cuda gpuId) }
          let state2 := resolveInputLayers (split inputs ',') batchOutputLayersInfo state1
          some ({ state2 with start := now }, [LogEvent.loading modelPath])

/-- Embedding of `DsTrtTscBridgeHost`. The function-local `static DeviceState
state` is the argument `state`; its value after the call is in the outcome. -/
def DsTrtTscBridgeHost {NI DP OI : Type} (torch : TorchRuntime) (env : Environment)
    (now : Int) (state : DeviceState) (batchOutputLayersInfo : List NvDsInferLayerInfo)
    (networkInfo : NI) (detectionParams : DP) (batchObjectList : List OI) :
    Option (Outcome NI DP OI) :=
  let gpuId : Nat := 0
  if state.device = Device.kCPU then
    match initHost torch env now gpuId state batchOutputLayersInfo with
    | none => none
    | some (state1, written) =>
      match DsTrtTscPostProcess torch now state1 batchOutputLayersInfo networkInfo
          detectionParams batchObjectList with
      | none => none
      | some out => some { out with stdout := written ++ out.stdout }
  else
    DsTrtTscPostProcess torch now state batchOutputLayersInfo networkInfo detectionParams
      batchObjectList

/-- The function-local `static std::vector<DeviceState> deviceState(4)` of
`DsTrtTscBridgeDevice` as it is constructed at wall-clock time `now`. -/
def deviceStateInit (now : Int) : List DeviceState :=
  List.replicate 4 (DeviceState.fresh now)

/-- Embedding of `DsTrtTscBridgeDevice`. The static vector of device states is
the argument `deviceState`; the call returns the vector as it is after the
call together with the outcome for the slot `gpuId`. Indexing the vector past
its end is undefined. -/
def DsTrtTscBridgeDevice {NI DP OI : Type} (torch : TorchRuntime) (env : Environment)
    (now : Int) (deviceState : List DeviceState) (gpuId : Nat)
    (batchOutputLayersInfo : List NvDsInferLayerInfo)
    (networkInfo : NI) (detectionParams : DP) (batchObjectList : List OI) :
    Option (List DeviceState × Outcome NI DP OI) :=
  match deviceState[gpuId]? with
  | none => none
  | some state =>
    if state.device = Device.kCPU then
      match initDevice torch env now gpuId state batchOutputLayersInfo with
      | none => none
      | some (state1, written) =>
        match DsTrtTscPostProcess torch now state1 batchOutputLayersInfo networkInfo
            detectionParams batchObjectList with
        | none => none
        | some out =>
          some (deviceState.set gpuId out.state, { out with stdout := written ++ out.stdout })
    else
      match DsTrtTscPostProcess torch now state batchOutputLayersInfo networkInfo
          detectionParams batchObjectList with
      | none => none
      | some out => some (deviceState.set gpuId out.state, out)

/-! ## Sequences of calls

The host calls an entry point once per inference batch. A `Call` collects what
one such call is given; the three functions below feed a list of calls, in
order, to one of the embedded functions, threading the static state. -/

/-- The arguments of one call, with the environment and the clock reading at
the time of the call. `gpuId` is only read by `DsTrtTscBridgeDevice`. -/
structure Call (NI DP OI : Type) where
  env : Environment
  now : Int
  gpuId : Nat
  batchOutputLayersInfo : List NvDsInferLayerInfo
  networkInfo : NI
  detectionParams : DP
  batchObjectList : List OI

/-- Successive calls of `DsTrtTscPostProcess` on one device state. -/
def runPostProcess {NI DP OI : Type} (torch : TorchRuntime) :
    DeviceState → List (Call NI DP OI) → Option (DeviceState × List (Outcome NI DP OI))
  | state, [] => some (state, [])
  | state, c :: cs =>
    match DsTrtTscPostProcess torch c.now state c.batchOutputLayersInfo c.networkInfo
        c.detectionParams c.batchObjectList with
    | none => none
    | some out =>
      match runPostProcess torch out.state cs with
      | none => none
      | some (final, outs) => some (final, out :: outs)

/-- Successive calls of `DsTrtTscBridgeHost`. -/
def runHost {NI DP OI : Type} (torch : TorchRuntime) :
    DeviceState → List (Call NI DP OI) → Option (DeviceState × List (Outcome NI DP OI))
  | state, [] => some (state, [])
  | state, c :: cs =>
    match DsTrtTscBridgeHost torch c.env c.now state c.batchOutputLayersInfo c.networkInfo
        c.detectionParams c.batchObjectList with
    | none => none
    | some out =>
      match runHost torch out.state cs with
      | none => none
      | some (final, outs) => some (final, out :: outs)

/-- Successive calls of `DsTrtTscBridgeDevice`. -/
def runDevice {NI DP OI : Type} (torch : TorchRuntime) :
    List DeviceState → List (Call NI DP OI) →
      Option (List DeviceState × List (Outcome NI DP OI))
  | deviceState, [] => some (deviceState, [])
  | deviceState, c :: cs =>
    match DsTrtTscBridgeDevice torch c.env c.now deviceState c.gpuId c.batchOutputLayersInfo
        c.networkInfo c.detectionParams c.batchObjectList with
    | none => none
    | some (deviceState1, out) =>
      match runDevice torch deviceState1 cs with
      | none => none
      | some (final, outs) => some (final, out :: outs)

/-! ## Reference definitions used in the statements -/

/-- Whether `layers[i].layerName` equals `name`. -/
def nameMatches (name : String) (layers : List NvDsInferLayerInfo) (i : Nat) : Bool :=
  match layers[i]? with
  | none => false
  | some layer => decide (name = layer.layerName)

/-- Reference definition of input-layer resolution: for each name in order,
the indexes `i`, increasing, of the layers whose `layerName` is that name. -/
def matchingIndexes (names : List String) (layers : List NvDsInferLayerInfo) : List Nat :=
  names.flatMap fun name => (List.range layers.length).filter (nameMatches name layers)

/-- The value `toTorchType(layers[i].dataType)`; the fall-through value of
`toTorchType` where there is no layer `i`. -/
def recordedType (layers : List NvDsInferLayerInfo) (i : Nat) : ScalarType :=
  match layers[i]? with
  | none => ScalarType.kFloat32
  | some layer => toTorchType layer.dataType

/-- A layer descriptor whose shape can be read: its `numDims` does not exceed
the capacity of its array `d`, which is not empty. -/
def ShapeReadable (layer : NvDsInferLayerInfo) : Prop :=
  0 < layer.inferDims.d.length ∧ layer.inferDims.numDims ≤ layer.inferDims.d.length

instance (layer : NvDsInferLayerInfo) : Decidable (ShapeReadable layer) := by
  unfold ShapeReadable; infer_instance

/-- The state holds the input-layer resolution of `names` against `layers`:
the indexes are those of the reference definition, there is one type per
index, the type at each position is `toTorchType` of the data type of the
layer the index at that position names, every index is within `layers`, and
so every lookup by `DsTrtTscPostProcess` in a layer list at least as long
finds a layer, the loop over the inputs completing when the shapes can be
read. -/
def ResolvedAgainst (names : List String) (layers : List NvDsInferLayerInfo)
    (state : DeviceState) : Prop :=
  state.inputLayerIndexes = matchingIndexes names layers ∧
  state.inputLayerTypes.length = state.inputLayerIndexes.length ∧
  (∀ j idx : Nat, state.inputLayerIndexes[j]? = some idx →
    ∃ layer : NvDsInferLayerInfo, layers[idx]? = some layer ∧
      state.inputLayerTypes[j]? = some (toTorchType layer.dataType)) ∧
  (∀ idx ∈ state.inputLayerIndexes, idx < layers.length) ∧
  (∀ later : List NvDsInferLayerInfo, layers.length ≤ later.length →
    ∀ idx ∈ state.inputLayerIndexes, ∃ layer, later[idx]? = some layer) ∧
  (∀ later : List NvDsInferLayerInfo, layers.length ≤ later.length →
    (∀ layer ∈ later, ShapeReadable layer) →
    ∃ inputTensors,
      gatherInputs state later state.inputLayerIndexes.length = some inputTensors)

/-- The reading of "one entry per expected name": as many indexes and types as
names, the index at position `i` naming a layer called `names[i]`, the type at
position `i` being `toTorchType` of that layer's data type. -/
def OneEntryPerName (names : List String) (layers : List NvDsInferLayerInfo)
    (state : DeviceState) : Prop :=
  state.inputLayerIndexes.length = names.length ∧
  state.inputLayerTypes.length = names.length ∧
  ∀ (i : Nat) (name : String), names[i]? = some name →
    ∃ (idx : Nat) (layer : NvDsInferLayerInfo),
      state.inputLayerIndexes[i]? = some idx ∧ layers[idx]? = some layer ∧
      layer.layerName = name ∧ state.inputLayerTypes[i]? = some (toTorchType layer.dataType)

/-- The value of `profileFrameCount` after `j` single-frame calls that began
on a fresh state: `0` before any call, then `1, 2, ..., 128, 1, 2, ...`. -/
def framesAfter (j : Nat) : Nat :=
  if j = 0 then 0 else (j - 1) % 128 + 1

/-- The detection count of a call made on `state`: the size of the first
dimension of the first element of the tuple the model returns for the inputs
gathered from the call's layers. -/
def callDetections {NI DP OI : Type} (torch : TorchRuntime) (state : DeviceState)
    (c : Call NI DP OI) : Option Nat :=
  match gatherInputs state c.batchOutputLayersInfo state.inputLayerIndexes.length with
  | none => none
  | some inputTensors =>
    match torch.forward state.model inputTensors with
    | none => none
    | some result => firstOutputDim result

/-- The model's forward pass returns, on every input, a value from which
line 129 can read a detection count. -/
def ForwardYieldsDetections (torch : TorchRuntime) (model : Module) : Prop :=
  ∀ inputTensors, ∃ result n,
    torch.forward model inputTensors = some result ∧ firstOutputDim result = some n

/-- The tokens joined back with the delimiter between consecutive tokens. -/
def joinTokens (delimiter : Char) : List String → List Char
  | [] => []
  | [t] => t.data
  | t :: u :: ts => t.data ++ delimiter :: joinTokens delimiter (u :: ts)

/-- What `split` returns, stated on the stream and the tokens. -/
def SplitSpec (c : Char) (s : List Char) (toks : List String) : Prop :=
  (∀ t ∈ toks, c ∉ t.data) ∧
  joinTokens c toks = (if s.getLast? = some c then s.dropLast else s) ∧
  toks.length = s.count c + (if s = [] ∨ s.getLast? = some c then 0 else 1) ∧
  (toks = [] ↔ s = [])

/-! ## Sample inputs

A runtime, an environment and a layer list on which the definitions above can
be evaluated. -/

/-- The first dimension of the first input tensor, `0` when there is none. -/
def leadingDim : List IValue → Nat
  | IValue.Tensor t :: _ => t.sizes.headD 0
  | _ => 0

/-- A runtime whose models load from every path and return a pair whose first
element is a tensor with as many rows as the first input has. -/
def sampleTorch : TorchRuntime :=
  { load := fun path => some ⟨path, Device.kCPU⟩
    forward := fun _ inputTensors =>
      some (IValue.Tuple
        [IValue.Tensor (from_blob 0 [leadingDim inputTensors, 6] ScalarType.kFloat32 Device.kCPU),
          IValue.None]) }

def sampleEnv : Environment :=
  { DS_TSC_PTH_PATH := some "/models/tsc.pth.", DS_TSC_INPUTS := some "boxes,scores" }

def sampleLayer (layerName : String) (dataType : NvDsInferDataType) (batch : Nat) :
    NvDsInferLayerInfo :=
  { dataType := dataType
    inferDims := { numDims := 2, d := [batch, 4, 0, 0, 0, 0, 0, 0], numElements := batch * 4 }
    bindingIndex := 0
    layerName := layerName
    buffer := 4096
    isInput := false }

def sampleLayers : List NvDsInferLayerInfo :=
  [sampleLayer "scores" NvDsInferDataType.FLOAT 3, sampleLayer "boxes" NvDsInferDataType.HALF 3,
    sampleLayer "classes" NvDsInferDataType.INT32 3]

/-- A call with the sample layers, for slot `gpuId`. -/
def sampleCall (gpuId : Nat) : Call Unit Unit Nat :=
  { env := sampleEnv, now := 10, gpuId := gpuId, batchOutputLayersInfo := sampleLayers,
    networkInfo := (), detectionParams := (), batchObjectList := [7, 9] }

/-- A device state as the host entry point leaves it after initialization on
the sample inputs, with `frames` frames counted since the last reset. -/
def sampleState (frames : Nat) : DeviceState :=
  { DeviceState.fresh 0 with
    device := Device.cuda 0
    profileFrameCount := frames
    detections := 40
    inputLayerIndexes := [1, 0]
    inputLayerTypes := [ScalarType.kFloat16, ScalarType.kFloat32] }

/-! ## Lemmas on `split` -/

theorem readToken_not_mem (c : Char) (s : List Char) : c ∉ (readToken c s).1 := by
  induction s with
  | nil => simp [readToken]
  | cons x xs ih =>
    unfold readToken
    by_cases hx : x = c
    · simp [hx]
    · simp only [if_neg hx, List.mem_cons, not_or]
      exact ⟨fun h => hx h.symm, ih⟩

/-- Either the delimiter does not occur and the token is the whole stream, or
the stream is the token, the delimiter, and what is left. -/
theorem readToken_cases (c : Char) (s : List Char) :
    (c ∉ s ∧ readToken c s = (s, [])) ∨
      s = (readToken c s).1 ++ c :: (readToken c s).2 := by
  induction s with
  | nil => left; simp [readToken]
  | cons x xs ih =>
    unfold readToken
    by_cases hx : x = c
    · right; simp [hx]
    · simp only [if_neg hx]
      rcases ih with ⟨hn, he⟩ | he
      · left
        refine ⟨?_, ?_⟩
        · simp only [List.mem_cons, not_or]
          exact ⟨fun h => hx h.symm, hn⟩
        · rw [he]
      · right
        simp only [List.cons_append]
        rw [← he]

theorem splitLoop_acc (c : Char) (fuel : Nat) (stream : List Char) (tokens : List String) :
    splitLoop c fuel stream tokens = tokens ++ splitLoop c fuel stream [] := by
  induction fuel generalizing stream tokens with
  | zero => simp [splitLoop]
  | succ fuel ih =>
    cases stream with
    | nil => simp [splitLoop, getline]
    | cons x xs =>
      simp only [splitLoop, getline]
      rw [ih _ (tokens ++ _), ih _ ([] ++ _)]
      simp

/-- One turn of the loop on a stream that is not at its end. -/
theorem splitLoop_cons (c : Char) (fuel : Nat) (x : Char) (xs : List Char) :
    splitLoop c (fuel + 1) (x :: xs) [] =
      String.mk (readToken c (x :: xs)).1 :: splitLoop c fuel (readToken c (x :: xs)).2 [] := by
  simp only [splitLoop, getline]
  rw [splitLoop_acc]
  simp

theorem splitLoop_spec (c : Char) (n : Nat) :
    ∀ s : List Char, s.length ≤ n → ∀ fuel, s.length < fuel →
      SplitSpec c s (splitLoop c fuel s []) := by
  induction n with
  | zero =>
    intro s hs fuel hf
    have : s = [] := List.eq_nil_of_length_eq_zero (by omega)
    subst this
    cases fuel <;> simp [SplitSpec, splitLoop, getline, joinTokens]
  | succ n ih =>
    intro s hs fuel hf
    cases s with
    | nil => cases fuel <;> simp [SplitSpec, splitLoop, getline, joinTokens]
    | cons x xs =>
      obtain ⟨fuel, rfl⟩ : ∃ k, fuel = k + 1 := ⟨fuel - 1, by omega⟩
      rw [splitLoop_cons]
      have hnot := readToken_not_mem c (x :: xs)
      rcases readToken_cases c (x :: xs) with ⟨hn, he⟩ | he
      · rw [he]
        cases fuel with
        | zero => simp at hf
        | succ k =>
          have hlast : (x :: xs).getLast? ≠ some c := by
            intro h
            exact hn (List.mem_of_getLast?_eq_some h)
          simp only [splitLoop, getline, SplitSpec, joinTokens]
          refine ⟨?_, ?_, ?_, ?_⟩
          · intro t ht
            simp at ht
            subst ht
            exact hn
          · rw [if_neg hlast]
          · rw [List.count_eq_zero_of_not_mem hn]
            simp [hlast]
          · simp
      · generalize htok : (readToken c (x :: xs)).1 = tok at he hnot
        generalize hrest : (readToken c (x :: xs)).2 = rest at he
        have hlen : (x :: xs).length = tok.length + 1 + rest.length := by
          rw [he]; simp; omega
        simp only [List.length_cons] at hs hf hlen
        have hrec := ih rest (by omega) fuel (by omega)
        obtain ⟨h1, h2, h3, h4⟩ := hrec
        rw [he]
        refine ⟨?_, ?_, ?_, ?_⟩
        · intro t ht
          simp only [List.mem_cons] at ht
          rcases ht with rfl | ht
          · exact hnot
          · exact h1 t ht
        · by_cases hr : rest = []
          · subst hr
            have : splitLoop c fuel [] [] = [] := h4.mpr rfl
            rw [this]
            simp [joinTokens]
          · have hne : splitLoop c fuel rest [] ≠ [] := fun h => hr (h4.mp h)
            obtain ⟨u, us, hu⟩ := List.exists_cons_of_ne_nil hne
            rw [hu] at h2 ⊢
            simp only [joinTokens]
            rw [h2]
            have hl : (tok ++ c :: rest).getLast? = rest.getLast? := by
              rw [List.getLast?_append, List.getLast?_cons]
              cases hrl : rest.getLast? with
              | none => exact absurd (List.getLast?_eq_none_iff.mp hrl) hr
              | some v => simp
            rw [hl]
            have hd : (tok ++ c :: rest).dropLast = tok ++ c :: rest.dropLast := by
              rw [List.dropLast_append_of_ne_nil _ (by simp)]
              cases rest with
              | nil => exact absurd rfl hr
              | cons r rs => simp [List.dropLast]
            rw [hd]
            split <;> rfl
        · simp only [List.length_cons, h3, List.count_append, List.count_cons_self]
          rw [List.count_eq_zero_of_not_mem hnot]
          have hl : (tok ++ c :: rest).getLast? = some c ↔ (rest = [] ∨ rest.getLast? = some c) := by
            rw [List.getLast?_append, List.getLast?_cons]
            cases hrl : rest.getLast? with
            | none => simp [List.getLast?_eq_none_iff.mp hrl]
            | some v =>
              have : rest ≠ [] := by
                intro h; subst h; simp at hrl
              simp [this]
          by_cases hq : rest = [] ∨ rest.getLast? = some c
          · rw [if_pos hq, if_pos (Or.inr (hl.mpr hq))]; omega
          · rw [if_neg hq, if_neg]
            · omega
            · rintro (h | h)
              · simp at h
              · exact hq (hl.mp h)
        · constructor
          · intro h; cases h
          · intro h
            exact absurd h (by cases tok <;> simp)

theorem split_spec (s : String) (c : Char) : SplitSpec c s.data (split s c) :=
  splitLoop_spec c s.data.length s.data (Nat.le_refl _) (s.length + 1)
    (by rcases s with ⟨l⟩; exact Nat.lt_succ_self _)

/-! ## Lemmas on input-layer resolution -/

theorem resolve_inner (name : String) (layers : List NvDsInferLayerInfo) (is : List Nat)
    (st : DeviceState) :
    is.foldl
        (fun st layerIndex =>
          match layers[layerIndex]? with
          | none => st
          | some layer =>
            if name = layer.layerName then
              { st with
                inputLayerIndexes := st.inputLayerIndexes ++ [layerIndex]
                inputLayerTypes := st.inputLayerTypes ++ [toTorchType layer.dataType] }
            else st)
        st =
      { st with
        inputLayerIndexes := st.inputLayerIndexes ++ is.filter (nameMatches name layers)
        inputLayerTypes :=
          st.inputLayerTypes ++ (is.filter (nameMatches name layers)).map (recordedType layers) } := by
  induction is generalizing st with
  | nil => simp
  | cons i is ih =>
    rw [List.foldl_cons, ih]
    cases hi : layers[i]? with
    | none => simp [nameMatches, hi]
    | some layer =>
      by_cases hname : name = layer.layerName
      · simp [nameMatches, recordedType, hi, hname]
      · simp [nameMatches, hi, hname]

theorem resolveInputLayers_eq (names : List String) (layers : List NvDsInferLayerInfo)
    (st : DeviceState) :
    resolveInputLayers names layers st =
      { st with
        inputLayerIndexes := st.inputLayerIndexes ++ matchingIndexes names layers
        inputLayerTypes :=
          st.inputLayerTypes ++ (matchingIndexes names layers).map (recordedType layers) } := by
  unfold resolveInputLayers
  induction names generalizing st with
  | nil => simp [matchingIndexes]
  | cons name names ih =>
    rw [List.foldl_cons, resolve_inner, ih]
    simp [matchingIndexes, List.flatMap_cons]

theorem matchingIndexes_lt {names : List String} {layers : List NvDsInferLayerInfo} {idx : Nat}
    (h : idx ∈ matchingIndexes names layers) : idx < layers.length := by
  simp only [matchingIndexes, List.mem_flatMap, List.mem_filter, List.mem_range] at h
  obtain ⟨_, _, hlt, _⟩ := h
  exact hlt

theorem matchingIndexes_name {names : List String} {layers : List NvDsInferLayerInfo} {idx : Nat}
    (h : idx ∈ matchingIndexes names layers) :
    ∃ layer, layers[idx]? = some layer ∧ layer.layerName ∈ names := by
  simp only [matchingIndexes, List.mem_flatMap, List.mem_filter, List.mem_range] at h
  obtain ⟨name, hname, _, hm⟩ := h
  unfold nameMatches at hm
  cases hl : layers[idx]? with
  | none => simp [hl] at hm
  | some layer =>
    simp only [hl, decide_eq_true_eq] at hm
    exact ⟨layer, rfl, hm ▸ hname⟩

theorem collectDims_some (d : List Nat) (k : Nat) (hk : k ≤ d.length) :
    ∃ dims, collectDims d k = some dims := by
  induction k with
  | zero => exact ⟨[], rfl⟩
  | succ k ih =>
    obtain ⟨dims, hd⟩ := ih (by omega)
    have hlt : k < d.length := by omega
    refine ⟨dims ++ [d[k]], ?_⟩
    simp [collectDims, hd, List.getElem?_eq_getElem hlt]

/-- The loop over the registered inputs completes when every stored index
names a layer whose shape can be read and every input has a stored type. -/
theorem gatherInputs_some (state : DeviceState) (layers : List NvDsInferLayerInfo)
    (hidx : ∀ idx ∈ state.inputLayerIndexes,
      ∃ layer, layers[idx]? = some layer ∧ ShapeReadable layer) :
    ∀ k, k ≤ state.inputLayerIndexes.length → k ≤ state.inputLayerTypes.length →
      ∃ inputTensors, gatherInputs state layers k = some inputTensors := by
  intro k
  induction k with
  | zero => intro _ _; exact ⟨[], rfl⟩
  | succ k ih =>
    intro h1 h2
    obtain ⟨acc, hacc⟩ := ih (by omega) (by omega)
    have hk1 : k < state.inputLayerIndexes.length := by omega
    have hk2 : k < state.inputLayerTypes.length := by omega
    obtain ⟨layer, hl, hs⟩ := hidx state.inputLayerIndexes[k] (List.getElem_mem hk1)
    obtain ⟨dims, hd⟩ := collectDims_some layer.inferDims.d layer.inferDims.numDims hs.2
    simp only [gatherInputs, hacc, List.getElem?_eq_getElem hk1, hl, hd,
      List.getElem?_eq_getElem hk2]
    exact ⟨_, rfl⟩

/-! ## Lemmas on `DsTrtTscPostProcess` -/

section PostProcess

variable {NI DP OI : Type}

/-- Everything a returning call of `DsTrtTscPostProcess` determines. -/
theorem postProcess_some {torch : TorchRuntime} {now : Int} {state : DeviceState}
    {layers : List NvDsInferLayerInfo} {ni : NI} {dp : DP} {objs : List OI}
    {out : Outcome NI DP OI}
    (h : DsTrtTscPostProcess torch now state layers ni dp objs = some out) :
    ∃ batchDim inputTensors result n,
      readBatchDim state layers = some batchDim ∧
      state.inputLayerIndexes.length < uint32Size ∧
      gatherInputs state layers state.inputLayerIndexes.length = some inputTensors ∧
      torch.forward state.model inputTensors = some result ∧
      firstOutputDim result = some n ∧
      out.ret = true ∧ out.batchObjectList = objs ∧ out.batchOutputLayersInfo = layers ∧
      out.networkInfo = ni ∧ out.detectionParams = dp ∧
      out.state.device = state.device ∧ out.state.sourceDevice = state.sourceDevice ∧
      out.state.hasDummyDim = state.hasDummyDim ∧ out.state.model = state.model ∧
      out.state.inputLayerIndexes = state.inputLayerIndexes ∧
      out.state.inputLayerTypes = state.inputLayerTypes ∧
      out.state.bufferCount = (state.bufferCount + 1) % uint32Size ∧
      (fpsFramePeriod ≤ state.profileFrameCount →
        out.stdout = [LogEvent.stats state.device.index state.bufferCount
          state.profileFrameCount ((state.detections + n) % uint32Size) (now - state.start)] ∧
        out.state.profileFrameCount = batchDim % uint32Size ∧ out.state.detections = 0) ∧
      (state.profileFrameCount < fpsFramePeriod →
        out.stdout = [] ∧
        out.state.profileFrameCount = (state.profileFrameCount + batchDim) % uint32Size ∧
        out.state.detections = (state.detections + n) % uint32Size) := by
  unfold DsTrtTscPostProcess at h
  split at h
  · exact absurd h (by simp)
  · rename_i batchDim hb
    split at h
    · exact absurd h (by simp)
    · rename_i hlen
      split at h
      · exact absurd h (by simp)
      · rename_i inputTensors hg
        split at h
        · exact absurd h (by simp)
        · rename_i result hf
          split at h
          · exact absurd h (by simp)
          · rename_i n hn
            refine ⟨batchDim, inputTensors, result, n, hb, by omega, hg, hf, hn, ?_⟩
            split at h
            · rename_i hp
              cases h
              simp
              exact hp
            · rename_i hp
              cases h
              simp
              omega

/-- A call of `DsTrtTscPostProcess` returns as soon as each of its steps is
defined. -/
theorem postProcess_returns (torch : TorchRuntime) (now : Int) (state : DeviceState)
    (layers : List NvDsInferLayerInfo) (ni : NI) (dp : DP) (objs : List OI)
    {batchDim : Nat} {inputTensors : List IValue} {result : IValue} {n : Nat}
    (hb : readBatchDim state layers = some batchDim)
    (hlen : state.inputLayerIndexes.length < uint32Size)
    (hg : gatherInputs state layers state.inputLayerIndexes.length = some inputTensors)
    (hf : torch.forward state.model inputTensors = some result)
    (hn : firstOutputDim result = some n) :
    ∃ out, DsTrtTscPostProcess torch now state layers ni dp objs = some out := by
  unfold DsTrtTscPostProcess
  rw [hb]
  simp only
  rw [if_neg (by omega), hg]
  simp only
  rw [hf]
  simp only
  rw [hn]
  simp only
  split <;> exact ⟨_, rfl⟩

end PostProcess

/-! ## Lemmas on the entry points -/

section EntryPoints

variable {NI DP OI : Type}

theorem initHost_some {torch : TorchRuntime} {env : Environment} {now : Int} {gpuId : Nat}
    {state state1 : DeviceState} {layers : List NvDsInferLayerInfo} {written : List LogEvent}
    (h : initHost torch env now gpuId state layers = some (state1, written)) :
    ∃ prefixPath model inputs,
      env.DS_TSC_PTH_PATH = some prefixPath ∧
      torch.load (prefixPath ++ toString gpuId) = some model ∧
      env.DS_TSC_INPUTS = some inputs ∧
      (split inputs ',' = [] ∨ layers.length < uint32Size) ∧
      written = [LogEvent.loading (prefixPath ++ toString gpuId)] ∧
      state1.device = Device.cuda gpuId ∧ state1.sourceDevice = Device.kCPU ∧
      state1.hasDummyDim = false ∧ state1.model = model.to (Device.cuda gpuId) ∧
      state1.inputLayerIndexes =
        state.inputLayerIndexes ++ matchingIndexes (split inputs ',') layers ∧
      state1.inputLayerTypes =
        state.inputLayerTypes ++
          (matchingIndexes (split inputs ',') layers).map (recordedType layers) ∧
      state1.profileFrameCount = state.profileFrameCount ∧
      state1.detections = state.detections ∧ state1.bufferCount = state.bufferCount := by
  unfold initHost at h
  split at h
  · exact absurd h (by simp)
  · rename_i prefixPath hp
    simp only at h
    split at h
    · exact absurd h (by simp)
    · rename_i model hm
      split at h
      · exact absurd h (by simp)
      · rename_i inputs hi
        split at h
        · exact absurd h (by simp)
        · rename_i hlen
          simp only [Option.some.injEq, Prod.mk.injEq] at h
          obtain ⟨h1, h2⟩ := h
          subst h1 h2
          refine ⟨prefixPath, model, inputs, hp, hm, hi, ?_, rfl, ?_⟩
          · by_cases hnil : split inputs ',' = []
            · exact Or.inl hnil
            · exact Or.inr (by
                by_contra hge
                exact hlen ⟨hnil, by omega⟩)
          rw [resolveInputLayers_eq]
          simp

theorem initDevice_some {torch : TorchRuntime} {env : Environment} {now : Int} {gpuId : Nat}
    {state state1 : DeviceState} {layers : List NvDsInferLayerInfo} {written : List LogEvent}
    (h : initDevice torch env now gpuId state layers = some (state1, written)) :
    ∃ prefixPath model inputs,
      env.DS_TSC_PTH_PATH = some prefixPath ∧
      torch.load (prefixPath ++ toString gpuId) = some model ∧
      env.DS_TSC_INPUTS = some inputs ∧
      (split inputs ',' = [] ∨ layers.length < uint32Size) ∧
      written = [LogEvent.loading (prefixPath ++ toString gpuId)] ∧
      state1.device = Device.cuda gpuId ∧ state1.sourceDevice = Device.cuda gpuId ∧
      state1.hasDummyDim = true ∧ state1.model = model.to (Device.cuda gpuId) ∧
      state1.inputLayerIndexes =
        state.inputLayerIndexes ++ matchingIndexes (split inputs ',') layers ∧
      state1.inputLayerTypes =
        state.inputLayerTypes ++
          (matchingIndexes (split inputs ',') layers).map (recordedType layers) ∧
      state1.profileFrameCount = state.profileFrameCount ∧
      state1.detections = state.detections ∧ state1.bufferCount = state.bufferCount := by
  unfold initDevice at h
  split at h
  · exact absurd h (by simp)
  · rename_i prefixPath hp
    simp only at h
    split at h
    · exact absurd h (by simp)
    · rename_i model hm
      split at h
      · exact absurd h (by simp)
      · rename_i inputs hi
        split at h
        · exact absurd h (by simp)
        · rename_i hlen
          simp only [Option.some.injEq, Prod.mk.injEq] at h
          obtain ⟨h1, h2⟩ := h
          subst h1 h2
          refine ⟨prefixPath, model, inputs, hp, hm, hi, ?_, rfl, ?_⟩
          · by_cases hnil : split inputs ',' = []
            · exact Or.inl hnil
            · exact Or.inr (by
                by_contra hge
                exact hlen ⟨hnil, by omega⟩)
          rw [resolveInputLayers_eq]
          simp

/-- The two ways a call of `DsTrtTscBridgeHost` returns: through the
initialization block, or past it. -/
theorem host_some {torch : TorchRuntime} {env : Environment} {now : Int} {state : DeviceState}
    {layers : List NvDsInferLayerInfo} {ni : NI} {dp : DP} {objs : List OI}
    {out : Outcome NI DP OI}
    (h : DsTrtTscBridgeHost torch env now state layers ni dp objs = some out) :
    (state.device = Device.kCPU ∧
      ∃ state1 written out1,
        initHost torch env now 0 state layers = some (state1, written) ∧
        DsTrtTscPostProcess torch now state1 layers ni dp objs = some out1 ∧
        out = { out1 with stdout := written ++ out1.stdout }) ∨
    (state.device ≠ Device.kCPU ∧
      DsTrtTscPostProcess torch now state layers ni dp objs = some out) := by
  unfold DsTrtTscBridgeHost at h
  simp only at h
  split at h
  · rename_i hdev
    left
    refine ⟨hdev, ?_⟩
    split at h
    · exact absurd h (by simp)
    · rename_i state1 written hinit
      split at h
      · exact absurd h (by simp)
      · rename_i out1 hpost
        simp only [Option.some.injEq] at h
        exact ⟨state1, written, out1, hinit, hpost, h.symm⟩
  · rename_i hdev
    right
    exact ⟨hdev, h⟩

/-- The two ways a call of `DsTrtTscBridgeDevice` returns. -/
theorem device_some {torch : TorchRuntime} {env : Environment} {now : Int}
    {deviceState deviceState1 : List DeviceState} {gpuId : Nat}
    {layers : List NvDsInferLayerInfo} {ni : NI} {dp : DP} {objs : List OI}
    {out : Outcome NI DP OI}
    (h : DsTrtTscBridgeDevice torch env now deviceState gpuId layers ni dp objs =
      some (deviceState1, out)) :
    ∃ state, deviceState[gpuId]? = some state ∧ deviceState1 = deviceState.set gpuId out.state ∧
      ((state.device = Device.kCPU ∧
        ∃ state1 written out1,
          initDevice torch env now gpuId state layers = some (state1, written) ∧
          DsTrtTscPostProcess torch now state1 layers ni dp objs = some out1 ∧
          out = { out1 with stdout := written ++ out1.stdout }) ∨
      (state.device ≠ Device.kCPU ∧
        DsTrtTscPostProcess torch now state layers ni dp objs = some out)) := by
  unfold DsTrtTscBridgeDevice at h
  split at h
  · exact absurd h (by simp)
  · rename_i state hst
    refine ⟨state, hst, ?_⟩
    split at h
    · rename_i hdev
      split at h
      · exact absurd h (by simp)
      · rename_i state1 written hinit
        split at h
        · exact absurd h (by simp)
        · rename_i out1 hpost
          simp only [Option.some.injEq, Prod.mk.injEq] at h
          obtain ⟨h1, h2⟩ := h
          subst h2
          exact ⟨h1.symm, Or.inl ⟨hdev, state1, written, out1, hinit, hpost, rfl⟩⟩
    · rename_i hdev
      split at h
      · exact absurd h (by simp)
      · rename_i out1 hpost
        simp only [Option.some.injEq, Prod.mk.injEq] at h
        obtain ⟨h1, h2⟩ := h
        subst h2
        exact ⟨h1.symm, Or.inr ⟨hdev, hpost⟩⟩

end EntryPoints

/-! ## The calls return -/

section Returns

variable {NI DP OI : Type}

theorem initHost_returns (torch : TorchRuntime) (env : Environment) (now : Int) (gpuId : Nat)
    (state : DeviceState) (layers : List NvDsInferLayerInfo)
    {prefixPath inputs : String} {model : Module}
    (hp : env.DS_TSC_PTH_PATH = some prefixPath)
    (hm : torch.load (prefixPath ++ toString gpuId) = some model)
    (hi : env.DS_TSC_INPUTS = some inputs)
    (hlen : layers.length < uint32Size) :
    ∃ state1, initHost torch env now gpuId state layers =
      some (state1, [LogEvent.loading (prefixPath ++ toString gpuId)]) := by
  unfold initHost
  rw [hp]
  simp only
  rw [hm]
  simp only
  rw [hi]
  simp only
  rw [if_neg (fun hh => absurd hh.2 (by omega))]
  exact ⟨_, rfl⟩

theorem initDevice_returns (torch : TorchRuntime) (env : Environment) (now : Int) (gpuId : Nat)
    (state : DeviceState) (layers : List NvDsInferLayerInfo)
    {prefixPath inputs : String} {model : Module}
    (hp : env.DS_TSC_PTH_PATH = some prefixPath)
    (hm : torch.load (prefixPath ++ toString gpuId) = some model)
    (hi : env.DS_TSC_INPUTS = some inputs)
    (hlen : layers.length < uint32Size) :
    ∃ state1, initDevice torch env now gpuId state layers =
      some (state1, [LogEvent.loading (prefixPath ++ toString gpuId)]) := by
  unfold initDevice
  rw [hp]
  simp only
  rw [hm]
  simp only
  rw [hi]
  simp only
  rw [if_neg (fun hh => absurd hh.2 (by omega))]
  exact ⟨_, rfl⟩

/-- A call of `DsTrtTscPostProcess` returns when the registered inputs name
layers of the list, the shapes can be read, and the model yields a tuple
headed by a tensor that has a first dimension. -/
theorem postProcess_returns_of_ready (torch : TorchRuntime) (now : Int) (state : DeviceState)
    (layers : List NvDsInferLayerInfo) (ni : NI) (dp : DP) (objs : List OI)
    (hcount : state.inputLayerIndexes.length < uint32Size)
    (htypes : state.inputLayerTypes.length = state.inputLayerIndexes.length)
    (hidx : ∀ idx ∈ state.inputLayerIndexes, idx < layers.length)
    (hshape : ∀ layer ∈ layers, ShapeReadable layer)
    (hdummy : state.hasDummyDim = true → layers ≠ [])
    (hf : ForwardYieldsDetections torch state.model) :
    ∃ out, DsTrtTscPostProcess torch now state layers ni dp objs = some out := by
  have hb : ∃ b, readBatchDim state layers = some b := by
    unfold readBatchDim
    by_cases hd : state.hasDummyDim = true
    · rw [if_pos hd]
      cases layers with
      | nil => exact absurd rfl (hdummy hd)
      | cons layer rest =>
        have hs := hshape layer (List.mem_cons_self _ _)
        simp only [List.getElem?_cons_zero]
        cases hdl : layer.inferDims.d with
        | nil => rw [ShapeReadable, hdl] at hs; simp at hs
        | cons v vs => exact ⟨v % uint32Size, by simp⟩
    · rw [if_neg hd]
      exact ⟨_, rfl⟩
  obtain ⟨b, hb⟩ := hb
  have hg := gatherInputs_some state layers
    (fun idx hmem => by
      have hlt := hidx idx hmem
      exact ⟨layers[idx], List.getElem?_eq_getElem hlt, hshape _ (List.getElem_mem hlt)⟩)
    state.inputLayerIndexes.length (Nat.le_refl _) (by omega)
  obtain ⟨inputTensors, hg⟩ := hg
  obtain ⟨result, n, hfw, hn⟩ := hf inputTensors
  exact postProcess_returns torch now state layers ni dp objs hb hcount hg hfw hn

end Returns

/-- On its first call, for a fresh state, `DsTrtTscBridgeHost` returns when the
environment is set, the model loads, the layer list and the matched inputs fit
the 32-bit loop counters, the shapes can be read and the model yields a
detection tensor. -/
theorem host_first_call_returns {NI DP OI : Type} (torch : TorchRuntime) (env : Environment)
    (now start : Int) (layers : List NvDsInferLayerInfo) (ni : NI) (dp : DP) (objs : List OI)
    {prefixPath inputs : String} {model : Module}
    (hp : env.DS_TSC_PTH_PATH = some prefixPath)
    (hm : torch.load (prefixPath ++ toString (0 : Nat)) = some model)
    (hi : env.DS_TSC_INPUTS = some inputs)
    (hlen : layers.length < uint32Size)
    (hcount : (matchingIndexes (split inputs ',') layers).length < uint32Size)
    (hshape : ∀ layer ∈ layers, ShapeReadable layer)
    (hf : ForwardYieldsDetections torch (model.to (Device.cuda 0))) :
    ∃ out, DsTrtTscBridgeHost torch env now (DeviceState.fresh start) layers ni dp objs =
      some out := by
  obtain ⟨state1, hinit⟩ :=
    initHost_returns torch env now 0 (DeviceState.fresh start) layers hp hm hi hlen
  obtain ⟨p, m, inp, hp2, hm2, hi2, _, _, _, _, hdummy, hmodel, hidx, htyp, _⟩ :=
    initHost_some hinit
  have hpe : p = prefixPath := by rw [hp] at hp2; exact (Option.some.inj hp2).symm
  have hie : inp = inputs := by rw [hi] at hi2; exact (Option.some.inj hi2).symm
  subst hpe hie
  have hme : m = model := by rw [hm] at hm2; exact (Option.some.inj hm2).symm
  subst hme
  simp only [DeviceState.fresh, List.nil_append] at hidx htyp
  obtain ⟨out1, hpost⟩ := postProcess_returns_of_ready torch now state1 layers ni dp objs
    (by rw [hidx]; exact hcount) (by rw [hidx, htyp, List.length_map])
    (by rw [hidx]; exact fun idx h => matchingIndexes_lt h) hshape
    (by rw [hdummy]; intro h; cases h) (by rw [hmodel]; exact hf)
  refine ⟨{ out1 with stdout := [LogEvent.loading (p ++ toString (0 : Nat))] ++ out1.stdout }, ?_⟩
  unfold DsTrtTscBridgeHost
  simp only [show (DeviceState.fresh start).device = Device.kCPU from rfl, if_true, hinit, hpost]

/-- On the first call for a fresh slot, `DsTrtTscBridgeDevice` returns under
the conditions of the host entry point, given a slot that exists and a layer
list that has a layer 0 to read the batch size from. -/
theorem device_first_call_returns {NI DP OI : Type} (torch : TorchRuntime) (env : Environment)
    (now start : Int) (deviceState : List DeviceState) (gpuId : Nat)
    (layers : List NvDsInferLayerInfo) (ni : NI) (dp : DP) (objs : List OI)
    {prefixPath inputs : String} {model : Module}
    (hslot : deviceState[gpuId]? = some (DeviceState.fresh start))
    (hp : env.DS_TSC_PTH_PATH = some prefixPath)
    (hm : torch.load (prefixPath ++ toString gpuId) = some model)
    (hi : env.DS_TSC_INPUTS = some inputs)
    (hne : layers ≠ [])
    (hlen : layers.length < uint32Size)
    (hcount : (matchingIndexes (split inputs ',') layers).length < uint32Size)
    (hshape : ∀ layer ∈ layers, ShapeReadable layer)
    (hf : ForwardYieldsDetections torch (model.to (Device.cuda gpuId))) :
    ∃ deviceState1 out,
      DsTrtTscBridgeDevice torch env now deviceState gpuId layers ni dp objs =
        some (deviceState1, out) := by
  obtain ⟨state1, hinit⟩ :=
    initDevice_returns torch env now gpuId (DeviceState.fresh start) layers hp hm hi hlen
  obtain ⟨p, m, inp, hp2, hm2, hi2, _, _, _, _, _, hmodel, hidx, htyp, _⟩ :=
    initDevice_some hinit
  have hpe : p = prefixPath := by rw [hp] at hp2; exact (Option.some.inj hp2).symm
  have hie : inp = inputs := by rw [hi] at hi2; exact (Option.some.inj hi2).symm
  subst hpe hie
  have hme : m = model := by rw [hm] at hm2; exact (Option.some.inj hm2).symm
  subst hme
  simp only [DeviceState.fresh, List.nil_append] at hidx htyp
  obtain ⟨out1, hpost⟩ := postProcess_returns_of_ready torch now state1 layers ni dp objs
    (by rw [hidx]; exact hcount) (by rw [hidx, htyp, List.length_map])
    (by rw [hidx]; exact fun idx h => matchingIndexes_lt h) hshape
    (fun _ => hne) (by rw [hmodel]; exact hf)
  refine ⟨deviceState.set gpuId out1.state,
    { out1 with stdout := [LogEvent.loading (p ++ toString gpuId)] ++ out1.stdout }, ?_⟩
  unfold DsTrtTscBridgeDevice
  rw [hslot]
  simp only [show (DeviceState.fresh start).device = Device.kCPU from rfl, if_true, hinit, hpost]

theorem eq_singleton_of_nodup {l : List Nat} {i : Nat} (hn : l.Nodup)
    (hall : ∀ x ∈ l, x = i) (hi : i ∈ l) : l = [i] := by
  cases l with
  | nil => cases hi
  | cons a t =>
    have ha : a = i := hall a (List.mem_cons_self _ _)
    subst ha
    cases t with
    | nil => rfl
    | cons b t2 =>
      have hb : b = a := hall b (List.mem_cons_of_mem _ (List.mem_cons_self _ _))
      subst hb
      simp at hn

theorem nameMatches_iff {name : String} {layers : List NvDsInferLayerInfo} {i : Nat} :
    nameMatches name layers i = true ↔
      ∃ layer, layers[i]? = some layer ∧ layer.layerName = name := by
  unfold nameMatches
  cases h : layers[i]? with
  | none => simp
  | some layer =>
    simp only [decide_eq_true_eq, Option.some.injEq, exists_eq_left']
    exact eq_comm

theorem filter_range_unique {name : String} {layers : List NvDsInferLayerInfo} {i : Nat}
    (hi : nameMatches name layers i = true)
    (hu : ∀ j, nameMatches name layers j = true → j = i) :
    (List.range layers.length).filter (nameMatches name layers) = [i] := by
  apply eq_singleton_of_nodup
  · exact List.Nodup.filter _ (List.nodup_range _)
  · intro x hx
    exact hu x (List.mem_filter.mp hx).2
  · refine List.mem_filter.mpr ⟨List.mem_range.mpr ?_, hi⟩
    obtain ⟨layer, hl, _⟩ := nameMatches_iff.mp hi
    exact (List.getElem?_eq_some_iff.mp hl).1

/-- When each name is the name of exactly one layer, resolution yields one
index per name, in the order of the names. -/
theorem matchingIndexes_unique (names : List String) (layers : List NvDsInferLayerInfo)
    (hu : ∀ name ∈ names, ∃ (i : Nat) (layer : NvDsInferLayerInfo),
      layers[i]? = some layer ∧ layer.layerName = name ∧
      ∀ (j : Nat) (layer2 : NvDsInferLayerInfo),
        layers[j]? = some layer2 → layer2.layerName = name → j = i) :
    (matchingIndexes names layers).length = names.length ∧
    ∀ (k : Nat) (name : String), names[k]? = some name →
      ∃ (idx : Nat) (layer : NvDsInferLayerInfo),
        (matchingIndexes names layers)[k]? = some idx ∧
          layers[idx]? = some layer ∧ layer.layerName = name := by
  induction names with
  | nil => simp [matchingIndexes]
  | cons name rest ih =>
    obtain ⟨i, layer, hl, hname, huniq⟩ := hu name (List.mem_cons_self _ _)
    have hf : (List.range layers.length).filter (nameMatches name layers) = [i] :=
      filter_range_unique (nameMatches_iff.mpr ⟨layer, hl, hname⟩)
        (fun j hj => by
          obtain ⟨layer2, hl2, hn2⟩ := nameMatches_iff.mp hj
          exact huniq j layer2 hl2 hn2)
    have hcons : matchingIndexes (name :: rest) layers = i :: matchingIndexes rest layers := by
      simp only [matchingIndexes, List.flatMap_cons, hf, List.singleton_append]
    obtain ⟨ihlen, ihget⟩ := ih (fun n hn => hu n (List.mem_cons_of_mem _ hn))
    rw [hcons]
    refine ⟨by simp [ihlen], ?_⟩
    intro k nm hk
    cases k with
    | zero =>
      simp only [List.getElem?_cons_zero, Option.some.injEq] at hk
      subst hk
      exact ⟨i, layer, by simp, hl, hname⟩
    | succ k =>
      simp only [List.getElem?_cons_succ] at hk ⊢
      exact ihget k nm hk

/-- What both initialization blocks leave in a fresh state. -/
theorem resolved_of_init {names : List String} {layers : List NvDsInferLayerInfo}
    {state : DeviceState}
    (hidx : state.inputLayerIndexes = matchingIndexes names layers)
    (htyp : state.inputLayerTypes = (matchingIndexes names layers).map (recordedType layers)) :
    ResolvedAgainst names layers state := by
  have hlt : ∀ idx ∈ state.inputLayerIndexes, idx < layers.length := by
    rw [hidx]; exact fun idx h => matchingIndexes_lt h
  refine ⟨hidx, by rw [hidx, htyp, List.length_map], ?_, hlt, ?_, ?_⟩
  · intro j idx hj
    have hmem : idx ∈ state.inputLayerIndexes := List.getElem?_mem hj
    have hl := hlt idx hmem
    refine ⟨layers[idx], List.getElem?_eq_getElem hl, ?_⟩
    rw [hidx] at hj
    rw [htyp, List.getElem?_map, hj]
    simp [recordedType, List.getElem?_eq_getElem hl]
  · intro later hlen idx hmem
    have hl : idx < later.length := Nat.lt_of_lt_of_le (hlt idx hmem) hlen
    exact ⟨later[idx], List.getElem?_eq_getElem hl⟩
  · intro later hlen hshape
    exact gatherInputs_some state later
      (fun idx hmem => by
        have hl : idx < later.length := Nat.lt_of_lt_of_le (hlt idx hmem) hlen
        exact ⟨later[idx], List.getElem?_eq_getElem hl, hshape _ (List.getElem_mem hl)⟩)
      _ (Nat.le_refl _) (by rw [hidx, htyp, List.length_map])

/-- After a returning call, the registered inputs are those the state had
after its initialization. -/
theorem host_first_call_state {NI DP OI : Type} {torch : TorchRuntime} {env : Environment}
    {now start : Int} {layers : List NvDsInferLayerInfo} {ni : NI} {dp : DP} {objs : List OI}
    {out : Outcome NI DP OI}
    (h : DsTrtTscBridgeHost torch env now (DeviceState.fresh start) layers ni dp objs =
      some out) :
    ∃ prefixPath inputs,
      env.DS_TSC_PTH_PATH = some prefixPath ∧ env.DS_TSC_INPUTS = some inputs ∧
      LogEvent.loading (prefixPath ++ toString (0 : Nat)) ∈ out.stdout ∧
      out.state.device = Device.cuda 0 ∧ out.state.hasDummyDim = false ∧
      out.state.inputLayerIndexes = matchingIndexes (split inputs ',') layers ∧
      out.state.inputLayerTypes =
        (matchingIndexes (split inputs ',') layers).map (recordedType layers) := by
  rcases host_some h with ⟨_, state1, written, out1, hinit, hp, rfl⟩ | ⟨hne, _⟩
  · obtain ⟨p, m, inp, hp1, _, hi1, _, hw, hdev, _, hdum, _, hidx, htyp, _⟩ := initHost_some hinit
    obtain ⟨_, _, _, _, _, _, _, _, _, _, _, _, _, _, hd, _, hdd, _, hi, ht, _⟩ :=
      postProcess_some hp
    refine ⟨p, inp, hp1, hi1, ?_, ?_, ?_, ?_, ?_⟩
    · simp [hw]
    · simp only; rw [hd, hdev]
    · simp only; rw [hdd, hdum]
    · simp only; rw [hi, hidx]; simp [DeviceState.fresh]
    · simp only; rw [ht, htyp]; simp [DeviceState.fresh]
  · exact absurd rfl hne

theorem device_first_call_state {NI DP OI : Type} {torch : TorchRuntime} {env : Environment}
    {now start : Int} {deviceState deviceState1 : List DeviceState} {gpuId : Nat}
    {layers : List NvDsInferLayerInfo} {ni : NI} {dp : DP} {objs : List OI}
    {out : Outcome NI DP OI}
    (hslot : deviceState[gpuId]? = some (DeviceState.fresh start))
    (h : DsTrtTscBridgeDevice torch env now deviceState gpuId layers ni dp objs =
      some (deviceState1, out)) :
    ∃ prefixPath inputs,
      env.DS_TSC_PTH_PATH = some prefixPath ∧ env.DS_TSC_INPUTS = some inputs ∧
      LogEvent.loading (prefixPath ++ toString gpuId) ∈ out.stdout ∧
      out.state.device = Device.cuda gpuId ∧ out.state.hasDummyDim = true ∧
      out.state.inputLayerIndexes = matchingIndexes (split inputs ',') layers ∧
      out.state.inputLayerTypes =
        (matchingIndexes (split inputs ',') layers).map (recordedType layers) := by
  obtain ⟨state, hst, _, hcase⟩ := device_some h
  rw [hslot] at hst
  have hse : state = DeviceState.fresh start := (Option.some.inj hst).symm
  subst hse
  rcases hcase with ⟨_, state1, written, out1, hinit, hp, rfl⟩ | ⟨hne, _⟩
  · obtain ⟨p, m, inp, hp1, _, hi1, _, hw, hdev, _, hdum, _, hidx, htyp, _⟩ :=
      initDevice_some hinit
    obtain ⟨_, _, _, _, _, _, _, _, _, _, _, _, _, _, hd, _, hdd, _, hi, ht, _⟩ :=
      postProcess_some hp
    refine ⟨p, inp, hp1, hi1, ?_, ?_, ?_, ?_, ?_⟩
    · simp [hw]
    · simp only; rw [hd, hdev]
    · simp only; rw [hdd, hdum]
    · simp only; rw [hi, hidx]; simp [DeviceState.fresh]
    · simp only; rw [ht, htyp]; simp [DeviceState.fresh]
  · exact absurd rfl hne

/-! ## Lemmas on sequences of calls -/

section Sequences

variable {NI DP OI : Type}

theorem runPostProcess_cons {torch : TorchRuntime} {state final : DeviceState}
    {c : Call NI DP OI} {cs : List (Call NI DP OI)} {outs : List (Outcome NI DP OI)}
    (h : runPostProcess torch state (c :: cs) = some (final, outs)) :
    ∃ out rest,
      DsTrtTscPostProcess torch c.now state c.batchOutputLayersInfo c.networkInfo
        c.detectionParams c.batchObjectList = some out ∧
      runPostProcess torch out.state cs = some (final, rest) ∧ outs = out :: rest := by
  unfold runPostProcess at h
  split at h
  · exact absurd h (by simp)
  · rename_i out hout
    split at h
    · exact absurd h (by simp)
    · rename_i final1 rest hrest
      simp only [Option.some.injEq, Prod.mk.injEq] at h
      obtain ⟨h1, h2⟩ := h
      subst h1
      exact ⟨out, rest, hout, hrest, h2.symm⟩

theorem runHost_cons {torch : TorchRuntime} {state final : DeviceState}
    {c : Call NI DP OI} {cs : List (Call NI DP OI)} {outs : List (Outcome NI DP OI)}
    (h : runHost torch state (c :: cs) = some (final, outs)) :
    ∃ out rest,
      DsTrtTscBridgeHost torch c.env c.now state c.batchOutputLayersInfo c.networkInfo
        c.detectionParams c.batchObjectList = some out ∧
      runHost torch out.state cs = some (final, rest) ∧ outs = out :: rest := by
  unfold runHost at h
  split at h
  · exact absurd h (by simp)
  · rename_i out hout
    split at h
    · exact absurd h (by simp)
    · rename_i final1 rest hrest
      simp only [Option.some.injEq, Prod.mk.injEq] at h
      obtain ⟨h1, h2⟩ := h
      subst h1
      exact ⟨out, rest, hout, hrest, h2.symm⟩

theorem runDevice_cons {torch : TorchRuntime} {deviceState final : List DeviceState}
    {c : Call NI DP OI} {cs : List (Call NI DP OI)} {outs : List (Outcome NI DP OI)}
    (h : runDevice torch deviceState (c :: cs) = some (final, outs)) :
    ∃ deviceState1 out rest,
      DsTrtTscBridgeDevice torch c.env c.now deviceState c.gpuId c.batchOutputLayersInfo
        c.networkInfo c.detectionParams c.batchObjectList = some (deviceState1, out) ∧
      runDevice torch deviceState1 cs = some (final, rest) ∧ outs = out :: rest := by
  unfold runDevice at h
  split at h
  · exact absurd h (by simp)
  · rename_i deviceState1 out hout
    split at h
    · exact absurd h (by simp)
    · rename_i final1 rest hrest
      simp only [Option.some.injEq, Prod.mk.injEq] at h
      obtain ⟨h1, h2⟩ := h
      subst h1
      exact ⟨deviceState1, out, rest, hout, hrest, h2.symm⟩

theorem period_step {torch : TorchRuntime} {now : Int} {state : DeviceState}
    {layers : List NvDsInferLayerInfo} {ni : NI} {dp : DP} {objs : List OI}
    {out : Outcome NI DP OI} (j : Nat)
    (hd : state.hasDummyDim = false)
    (hp : state.profileFrameCount = framesAfter j)
    (h : DsTrtTscPostProcess torch now state layers ni dp objs = some out) :
    out.state.hasDummyDim = false ∧ out.state.profileFrameCount = framesAfter (j + 1) ∧
    (out.stdout ≠ [] ↔ (0 < j ∧ j % 128 = 0)) ∧
    (∀ g b f d e, LogEvent.stats g b f d e ∈ out.stdout → f = 128) ∧
    (out.stdout ≠ [] → out.state.detections = 0) := by
  obtain ⟨batchDim, _, _, n, hb, _, _, _, _, _, _, _, _, _, _, _, hdd, _, _, _, _, hreset,
    hkeep⟩ := postProcess_some h
  have hb1 : batchDim = 1 := by
    unfold readBatchDim at hb
    rw [hd] at hb
    simpa using hb.symm
  subst hb1
  simp only [fpsFramePeriod, uint32Size] at hreset hkeep
  have hfa : framesAfter j = if j = 0 then 0 else (j - 1) % 128 + 1 := rfl
  have hfb : framesAfter (j + 1) = j % 128 + 1 := by simp [framesAfter]
  by_cases hge : 128 ≤ state.profileFrameCount
  · obtain ⟨h1, h2, h3⟩ := hreset hge
    have hj : 0 < j ∧ j % 128 = 0 := by
      rw [hp, hfa] at hge
      split at hge <;> omega
    refine ⟨by rw [hdd, hd], ?_, ?_, ?_, fun _ => h3⟩
    · rw [h2, hfb]; omega
    · rw [h1]; simp [hj]
    · intro g b f d e hmem
      rw [h1] at hmem
      simp only [List.mem_singleton, LogEvent.stats.injEq] at hmem
      obtain ⟨_, _, hf, _⟩ := hmem
      rw [hf, hp, hfa]
      rw [hp, hfa] at hge
      split at hge
      · omega
      · rw [if_neg (by assumption)]; omega
  · obtain ⟨h1, h2, h3⟩ := hkeep (by omega)
    have hj : ¬ (0 < j ∧ j % 128 = 0) := by
      rw [hp, hfa] at hge
      split at hge <;> omega
    refine ⟨by rw [hdd, hd], ?_, ?_, ?_, ?_⟩
    · rw [h2, hfb, hp, hfa]
      rw [hp, hfa] at hge
      split at hge
      · rename_i hz; subst hz; simp
      · rw [if_neg (by assumption)]; omega
    · rw [h1]; simp [hj]
    · intro g b f d e hmem
      rw [h1] at hmem
      cases hmem
    · intro hne
      exact absurd h1 hne

theorem period_run {torch : TorchRuntime} (calls : List (Call NI DP OI)) :
    ∀ (j : Nat) (state final : DeviceState) (outs : List (Outcome NI DP OI)),
      state.hasDummyDim = false → state.profileFrameCount = framesAfter j →
      runPostProcess torch state calls = some (final, outs) →
      outs.length = calls.length ∧
      ∀ (k : Nat) (out : Outcome NI DP OI), outs[k]? = some out →
        (out.stdout ≠ [] ↔ (0 < j + k ∧ (j + k) % 128 = 0)) ∧
        (∀ g b f d e, LogEvent.stats g b f d e ∈ out.stdout → f = 128) ∧
        (out.stdout ≠ [] → out.state.detections = 0) ∧
        out.state.profileFrameCount = framesAfter (j + k + 1) := by
  induction calls with
  | nil =>
    intro j state final outs _ _ h
    simp only [runPostProcess, Option.some.injEq, Prod.mk.injEq] at h
    obtain ⟨_, h2⟩ := h
    subst h2
    simp
  | cons c cs ih =>
    intro j state final outs hd hp h
    obtain ⟨out, rest, hout, hrest, rfl⟩ := runPostProcess_cons h
    obtain ⟨s1, s2, s3, s4, s5⟩ := period_step j hd hp hout
    obtain ⟨ihlen, ihget⟩ := ih (j + 1) out.state final rest s1 s2 hrest
    refine ⟨by simp [ihlen], ?_⟩
    intro k o hk
    cases k with
    | zero =>
      simp only [List.getElem?_cons_zero, Option.some.injEq] at hk
      subst hk
      exact ⟨s3, s4, s5, s2⟩
    | succ k =>
      simp only [List.getElem?_cons_succ] at hk
      have := ihget k o hk
      have he : j + 1 + k = j + (k + 1) := by omega
      rw [he] at this
      exact this

theorem postProcess_no_loading {torch : TorchRuntime} {now : Int} {state : DeviceState}
    {layers : List NvDsInferLayerInfo} {ni : NI} {dp : DP} {objs : List OI}
    {out : Outcome NI DP OI}
    (h : DsTrtTscPostProcess torch now state layers ni dp objs = some out) :
    ¬ ∃ p, LogEvent.loading p ∈ out.stdout := by
  obtain ⟨_, _, _, _, _, _, _, _, _, _, _, _, _, _, _, _, _, _, _, _, _, hreset, hkeep⟩ :=
    postProcess_some h
  rintro ⟨p, hp⟩
  by_cases hge : fpsFramePeriod ≤ state.profileFrameCount
  · rw [(hreset hge).1] at hp
    simp at hp
  · rw [(hkeep (by omega)).1] at hp
    cases hp

theorem cuda_ne_kCPU (gpuId : Nat) : Device.cuda gpuId ≠ Device.kCPU := by
  intro h
  have := congrArg Device.type h
  cases this

/-- One call of `DsTrtTscBridgeDevice` on a vector whose slots are either
untouched or initialized for their own index. -/
theorem device_step {torch : TorchRuntime} {env : Environment} {now : Int}
    {deviceState deviceState1 : List DeviceState} {gpuId : Nat}
    {layers : List NvDsInferLayerInfo} {ni : NI} {dp : DP} {objs : List OI}
    {out : Outcome NI DP OI}
    (hinv : ∀ (g : Nat) (s : DeviceState), deviceState[g]? = some s →
      s.device = Device.kCPU ∨ s.device = Device.cuda g)
    (h : DsTrtTscBridgeDevice torch env now deviceState gpuId layers ni dp objs =
      some (deviceState1, out)) :
    ∃ s0, deviceState[gpuId]? = some s0 ∧ deviceState1 = deviceState.set gpuId out.state ∧
      out.state.device = Device.cuda gpuId ∧
      ((∃ p, LogEvent.loading p ∈ out.stdout) ↔ s0.device = Device.kCPU) ∧
      (s0.device ≠ Device.kCPU →
        out.state.inputLayerIndexes = s0.inputLayerIndexes ∧
          out.state.inputLayerTypes = s0.inputLayerTypes) := by
  obtain ⟨s0, hs0, hset, hcase⟩ := device_some h
  refine ⟨s0, hs0, hset, ?_⟩
  rcases hcase with ⟨hcpu, state1, written, out1, hinit, hp, rfl⟩ | ⟨hne, hp⟩
  · obtain ⟨p, _, _, _, _, _, _, hw, hdev, _⟩ := initDevice_some hinit
    obtain ⟨_, _, _, _, _, _, _, _, _, _, _, _, _, _, hd, _⟩ := postProcess_some hp
    refine ⟨by simp only; rw [hd, hdev], ?_, fun hne => absurd hcpu hne⟩
    constructor
    · intro _; exact hcpu
    · intro _; exact ⟨p ++ toString gpuId, by rw [hw]; simp⟩
  · obtain ⟨_, _, _, _, _, _, _, _, _, _, _, _, _, _, hd, _, _, _, hi, ht, _⟩ :=
      postProcess_some hp
    refine ⟨?_, ?_, fun _ => ⟨hi, ht⟩⟩
    · rw [hd]
      rcases hinv gpuId s0 hs0 with hc | hc
      · exact absurd hc hne
      · exact hc
    · constructor
      · intro hl; exact absurd hl (postProcess_no_loading hp)
      · intro hc; exact absurd hc hne

/-- One call of `DsTrtTscBridgeHost` on a state that is either untouched or
initialized. -/
theorem host_step {torch : TorchRuntime} {env : Environment} {now : Int} {state : DeviceState}
    {layers : List NvDsInferLayerInfo} {ni : NI} {dp : DP} {objs : List OI}
    {out : Outcome NI DP OI}
    (hinv : state.device = Device.kCPU ∨ state.device = Device.cuda 0)
    (h : DsTrtTscBridgeHost torch env now state layers ni dp objs = some out) :
    out.state.device = Device.cuda 0 ∧
    ((∃ p, LogEvent.loading p ∈ out.stdout) ↔ state.device = Device.kCPU) ∧
    (state.device ≠ Device.kCPU →
      out.state.inputLayerIndexes = state.inputLayerIndexes ∧
        out.state.inputLayerTypes = state.inputLayerTypes) := by
  rcases host_some h with ⟨hcpu, state1, written, out1, hinit, hp, rfl⟩ | ⟨hne, hp⟩
  · obtain ⟨p, _, _, _, _, _, _, hw, hdev, _⟩ := initHost_some hinit
    obtain ⟨_, _, _, _, _, _, _, _, _, _, _, _, _, _, hd, _⟩ := postProcess_some hp
    refine ⟨by simp only; rw [hd, hdev], ?_, fun hne => absurd hcpu hne⟩
    constructor
    · intro _; exact hcpu
    · intro _; exact ⟨p ++ toString (0 : Nat), by rw [hw]; simp⟩
  · obtain ⟨_, _, _, _, _, _, _, _, _, _, _, _, _, _, hd, _, _, _, hi, ht, _⟩ :=
      postProcess_some hp
    refine ⟨?_, ?_, fun _ => ⟨hi, ht⟩⟩
    · rw [hd]
      rcases hinv with hc | hc
      · exact absurd hc hne
      · exact hc
    · constructor
      · intro hl; exact absurd hl (postProcess_no_loading hp)
      · intro hc; exact absurd hc hne

theorem device_run {torch : TorchRuntime} (calls : List (Call NI DP OI)) :
    ∀ (deviceState final : List DeviceState) (outs : List (Outcome NI DP OI)),
      (∀ (g : Nat) (s : DeviceState), deviceState[g]? = some s →
        s.device = Device.kCPU ∨ s.device = Device.cuda g) →
      runDevice torch deviceState calls = some (final, outs) →
      outs.length = calls.length ∧
      ∀ (k : Nat) (c : Call NI DP OI) (out : Outcome NI DP OI),
        calls[k]? = some c → outs[k]? = some out →
        ∃ s0, deviceState[c.gpuId]? = some s0 ∧
          ((∃ p, LogEvent.loading p ∈ out.stdout) ↔
            (s0.device = Device.kCPU ∧
              ∀ (j : Nat) (cj : Call NI DP OI), j < k → calls[j]? = some cj →
                cj.gpuId ≠ c.gpuId)) ∧
          out.state.device = Device.cuda c.gpuId ∧
          (s0.device ≠ Device.kCPU →
            out.state.inputLayerIndexes = s0.inputLayerIndexes ∧
              out.state.inputLayerTypes = s0.inputLayerTypes) ∧
          (∀ (j : Nat) (cj : Call NI DP OI) (oj : Outcome NI DP OI), j < k →
            calls[j]? = some cj → outs[j]? = some oj → cj.gpuId = c.gpuId →
            out.state.inputLayerIndexes = oj.state.inputLayerIndexes ∧
              out.state.inputLayerTypes = oj.state.inputLayerTypes) := by
  induction calls with
  | nil =>
    intro deviceState final outs _ h
    simp only [runDevice, Option.some.injEq, Prod.mk.injEq] at h
    obtain ⟨_, h2⟩ := h
    subst h2
    simp
  | cons c0 cs ih =>
    intro deviceState final outs hinv h
    obtain ⟨ds1, out0, rest, hcall, hrest, rfl⟩ := runDevice_cons h
    obtain ⟨s0, hs0, hset, hdev0, hload0, hkeep0⟩ := device_step hinv hcall
    have hlt0 : c0.gpuId < deviceState.length := (List.getElem?_eq_some_iff.mp hs0).1
    have hinv1 : ∀ (g : Nat) (s : DeviceState), ds1[g]? = some s →
        s.device = Device.kCPU ∨ s.device = Device.cuda g := by
      intro g s hg
      rw [hset] at hg
      by_cases hgg : c0.gpuId = g
      · subst hgg
        rw [List.getElem?_set_self hlt0] at hg
        right
        rw [← Option.some.inj hg]
        exact hdev0
      · rw [List.getElem?_set_ne hgg] at hg
        exact hinv g s hg
    obtain ⟨ihlen, ihget⟩ := ih ds1 final rest hinv1 hrest
    refine ⟨by simp [ihlen], ?_⟩
    intro k c out hc hout
    cases k with
    | zero =>
      simp only [List.getElem?_cons_zero, Option.some.injEq] at hc hout
      subst hc hout
      refine ⟨s0, hs0, ?_, hdev0, hkeep0, ?_⟩
      · rw [hload0]
        constructor
        · intro hcpu; exact ⟨hcpu, fun j _ hj => absurd hj (Nat.not_lt_zero _)⟩
        · intro hh; exact hh.1
      · intro j _ _ hj
        exact absurd hj (Nat.not_lt_zero _)
    | succ k =>
      simp only [List.getElem?_cons_succ] at hc hout
      obtain ⟨s1, hs1, hload, hdev, hkeep, hsame⟩ := ihget k c out hc hout
      by_cases hg : c0.gpuId = c.gpuId
      · have hs1e : s1 = out0.state := by
          rw [hset, ← hg, List.getElem?_set_self hlt0] at hs1
          exact (Option.some.inj hs1).symm
        have hs1dev : s1.device ≠ Device.kCPU := by
          rw [hs1e, hdev0]; exact cuda_ne_kCPU _
        refine ⟨s0, by rw [← hg]; exact hs0, ?_, hdev, ?_, ?_⟩
        · constructor
          · intro hl
            exact absurd (hload.mp hl).1 hs1dev
          · intro hh
            exact absurd hg (hh.2 0 c0 (Nat.succ_pos _) (by simp))
        · intro hne
          obtain ⟨a, b⟩ := hkeep hs1dev
          obtain ⟨a0, b0⟩ := hkeep0 hne
          rw [hs1e] at a b
          exact ⟨a.trans a0, b.trans b0⟩
        · intro j cj oj hj hcj hoj hgj
          cases j with
          | zero =>
            simp only [List.getElem?_cons_zero, Option.some.injEq] at hcj hoj
            subst hoj
            obtain ⟨a, b⟩ := hkeep hs1dev
            rw [hs1e] at a b
            exact ⟨a, b⟩
          | succ j =>
            simp only [List.getElem?_cons_succ] at hcj hoj
            exact hsame j cj oj (by omega) hcj hoj hgj
      · have hs1e : deviceState[c.gpuId]? = some s1 := by
          rw [hset, List.getElem?_set_ne hg] at hs1
          exact hs1
        refine ⟨s1, hs1e, ?_, hdev, hkeep, ?_⟩
        · rw [hload]
          constructor
          · rintro ⟨hcpu, hall⟩
            refine ⟨hcpu, ?_⟩
            intro j cj hj hcj
            cases j with
            | zero =>
              simp only [List.getElem?_cons_zero, Option.some.injEq] at hcj
              subst hcj
              exact hg
            | succ j =>
              simp only [List.getElem?_cons_succ] at hcj
              exact hall j cj (by omega) hcj
          · rintro ⟨hcpu, hall⟩
            refine ⟨hcpu, ?_⟩
            intro j cj hj hcj
            exact hall (j + 1) cj (by omega) (by simpa using hcj)
        · intro j cj oj hj hcj hoj hgj
          cases j with
          | zero =>
            simp only [List.getElem?_cons_zero, Option.some.injEq] at hcj
            subst hcj
            exact absurd hgj hg
          | succ j =>
            simp only [List.getElem?_cons_succ] at hcj hoj
            exact hsame j cj oj (by omega) hcj hoj hgj

theorem host_run {torch : TorchRuntime} (calls : List (Call NI DP OI)) :
    ∀ (state final : DeviceState) (outs : List (Outcome NI DP OI)),
      (state.device = Device.kCPU ∨ state.device = Device.cuda 0) →
      runHost torch state calls = some (final, outs) →
      outs.length = calls.length ∧
      ∀ (k : Nat) (out : Outcome NI DP OI), outs[k]? = some out →
        ((∃ p, LogEvent.loading p ∈ out.stdout) ↔ (state.device = Device.kCPU ∧ k = 0)) ∧
        out.state.device = Device.cuda 0 ∧
        (state.device ≠ Device.kCPU →
          out.state.inputLayerIndexes = state.inputLayerIndexes ∧
            out.state.inputLayerTypes = state.inputLayerTypes) ∧
        (∀ (j : Nat) (oj : Outcome NI DP OI), j < k → outs[j]? = some oj →
          out.state.inputLayerIndexes = oj.state.inputLayerIndexes ∧
            out.state.inputLayerTypes = oj.state.inputLayerTypes) := by
  induction calls with
  | nil =>
    intro state final outs _ h
    simp only [runHost, Option.some.injEq, Prod.mk.injEq] at h
    obtain ⟨_, h2⟩ := h
    subst h2
    simp
  | cons c0 cs ih =>
    intro state final outs hinv h
    obtain ⟨out0, rest, hcall, hrest, rfl⟩ := runHost_cons h
    obtain ⟨hdev0, hload0, hkeep0⟩ := host_step hinv hcall
    obtain ⟨ihlen, ihget⟩ := ih out0.state final rest (Or.inr hdev0) hrest
    have hne1 : out0.state.device ≠ Device.kCPU := by rw [hdev0]; exact cuda_ne_kCPU _
    refine ⟨by simp [ihlen], ?_⟩
    intro k out hout
    cases k with
    | zero =>
      simp only [List.getElem?_cons_zero, Option.some.injEq] at hout
      subst hout
      refine ⟨?_, hdev0, hkeep0, fun j _ hj => absurd hj (Nat.not_lt_zero _)⟩
      rw [hload0]
      simp
    | succ k =>
      simp only [List.getElem?_cons_succ] at hout
      obtain ⟨hload, hdev, hkeep, hsame⟩ := ihget k out hout
      obtain ⟨a, b⟩ := hkeep hne1
      refine ⟨?_, hdev, ?_, ?_⟩
      · constructor
        · intro hl; exact absurd (hload.mp hl).1 hne1
        · rintro ⟨_, hk⟩; exact absurd hk (Nat.succ_ne_zero _)
      · intro hne
        obtain ⟨a0, b0⟩ := hkeep0 hne
        exact ⟨a.trans a0, b.trans b0⟩
      · intro j oj hj hoj
        cases j with
        | zero =>
          simp only [List.getElem?_cons_zero, Option.some.injEq] at hoj
          subst hoj
          exact ⟨a, b⟩
        | succ j =>
          simp only [List.getElem?_cons_succ] at hoj
          exact hsame j oj (by omega) hoj

theorem gatherInputs_congr {s1 s2 : DeviceState} (layers : List NvDsInferLayerInfo)
    (hi : s1.inputLayerIndexes = s2.inputLayerIndexes)
    (ht : s1.inputLayerTypes = s2.inputLayerTypes)
    (hs : s1.sourceDevice = s2.sourceDevice) (hd : s1.device = s2.device) (k : Nat) :
    gatherInputs s1 layers k = gatherInputs s2 layers k := by
  induction k with
  | zero => rfl
  | succ k ih => simp only [gatherInputs, ih, hi, ht, hs, hd]

theorem callDetections_congr {torch : TorchRuntime} {s1 s2 : DeviceState}
    (hi : s1.inputLayerIndexes = s2.inputLayerIndexes)
    (ht : s1.inputLayerTypes = s2.inputLayerTypes)
    (hs : s1.sourceDevice = s2.sourceDevice) (hd : s1.device = s2.device)
    (hm : s1.model = s2.model) (c : Call NI DP OI) :
    callDetections torch s1 c = callDetections torch s2 c := by
  unfold callDetections
  rw [gatherInputs_congr c.batchOutputLayersInfo hi ht hs hd, hi, hm]

theorem firstOutputDim_some {result : IValue} {n : Nat} (h : firstOutputDim result = some n) :
    ∃ t rest, result = IValue.Tuple (IValue.Tensor t :: rest) ∧ t.sizes[0]? = some n := by
  unfold firstOutputDim at h
  split at h
  · rename_i t rest
    exact ⟨t, rest, rfl, h⟩
  · exact absurd h (by simp)

/-- Over calls that do not log, the detections accumulate and the registered
inputs, devices and model stay as they were. -/
theorem quiet_run {torch : TorchRuntime} (calls : List (Call NI DP OI)) :
    ∀ (state final : DeviceState) (outs : List (Outcome NI DP OI)),
      runPostProcess torch state calls = some (final, outs) →
      (∀ o ∈ outs, o.stdout = []) →
      ∃ ns : List Nat,
        calls.map (callDetections torch state) = ns.map some ∧
        (∀ m : Nat,
          (final.detections + m) % 2 ^ 32 = (state.detections + ns.sum + m) % 2 ^ 32) ∧
        final.inputLayerIndexes = state.inputLayerIndexes ∧
        final.inputLayerTypes = state.inputLayerTypes ∧
        final.sourceDevice = state.sourceDevice ∧ final.device = state.device ∧
        final.model = state.model := by
  induction calls with
  | nil =>
    intro state final outs h _
    simp only [runPostProcess, Option.some.injEq, Prod.mk.injEq] at h
    obtain ⟨h1, _⟩ := h
    subst h1
    exact ⟨[], rfl, fun m => by simp, rfl, rfl, rfl, rfl, rfl⟩
  | cons c cs ih =>
    intro state final outs h hq
    obtain ⟨out, rest, hout, hrest, rfl⟩ := runPostProcess_cons h
    obtain ⟨_, inputTensors, result, n, _, _, hg, hf, hn, _, _, _, _, _, hd, hs, _, hm, hi, ht, _,
      hreset, hkeep⟩ := postProcess_some hout
    have hquiet : out.stdout = [] := hq out (List.mem_cons_self _ _)
    have hlt : state.profileFrameCount < fpsFramePeriod := by
      by_contra hge
      rw [(hreset (by omega)).1] at hquiet
      cases hquiet
    obtain ⟨_, _, hdet⟩ := hkeep hlt
    obtain ⟨ns, hns, hsum, hi2, ht2, hs2, hd2, hm2⟩ :=
      ih out.state final rest hrest (fun o ho => hq o (List.mem_cons_of_mem _ ho))
    refine ⟨n :: ns, ?_, ?_, hi2.trans hi, ht2.trans ht, hs2.trans hs, hd2.trans hd,
      hm2.trans hm⟩
    · simp only [List.map_cons, List.cons.injEq]
      refine ⟨?_, ?_⟩
      · unfold callDetections
        rw [hg]
        simp only
        rw [hf]
        exact hn
      · rw [← hns]
        apply List.map_congr_left
        intro c2 _
        exact (callDetections_congr hi ht hs hd hm c2).symm
    · intro m
      rw [hsum m, hdet]
      simp only [uint32Size, List.sum_cons]
      omega

end Sequences

/-! ## The claims -/

/-- C4: the boolean return value is always true. No call of
`DsTrtTscPostProcess`, `DsTrtTscBridgeHost` or `DsTrtTscBridgeDevice` returns
`false`: whenever one of them returns, it returns `true`; and each of them does
return (`DsTrtTscPostProcess` whenever its registered inputs can be gathered
and the model yields a detection tensor, the two entry points on a first call
whose environment, model and layer list are usable). -/
theorem return_value_always_true {NI DP OI : Type} (torch : TorchRuntime) (env : Environment)
    (now : Int) (layers : List NvDsInferLayerInfo) (ni : NI) (dp : DP) (objs : List OI) :
    (∀ state (out : Outcome NI DP OI),
      DsTrtTscPostProcess torch now state layers ni dp objs = some out → out.ret = true) ∧
    (∀ state (out : Outcome NI DP OI),
      DsTrtTscBridgeHost torch env now state layers ni dp objs = some out → out.ret = true) ∧
    (∀ deviceState gpuId deviceState1 (out : Outcome NI DP OI),
      DsTrtTscBridgeDevice torch env now deviceState gpuId layers ni dp objs =
        some (deviceState1, out) → out.ret = true) ∧
    (∀ state : DeviceState,
      state.inputLayerIndexes.length < uint32Size →
      state.inputLayerTypes.length = state.inputLayerIndexes.length →
      (∀ idx ∈ state.inputLayerIndexes, idx < layers.length) →
      (∀ layer ∈ layers, ShapeReadable layer) →
      (state.hasDummyDim = true → layers ≠ []) →
      ForwardYieldsDetections torch state.model →
      ∃ out : Outcome NI DP OI,
        DsTrtTscPostProcess torch now state layers ni dp objs = some out ∧ out.ret = true) ∧
    (∀ (start : Int) (prefixPath inputs : String) (model : Module),
      env.DS_TSC_PTH_PATH = some prefixPath →
      torch.load (prefixPath ++ toString (0 : Nat)) = some model →
      env.DS_TSC_INPUTS = some inputs →
      layers.length < uint32Size →
      (matchingIndexes (split inputs ',') layers).length < uint32Size →
      (∀ layer ∈ layers, ShapeReadable layer) →
      ForwardYieldsDetections torch (model.to (Device.cuda 0)) →
      ∃ out : Outcome NI DP OI,
        DsTrtTscBridgeHost torch env now (DeviceState.fresh start) layers ni dp objs = some out ∧
          out.ret = true) ∧
    (∀ (start : Int) (gpuId : Nat) (prefixPath inputs : String) (model : Module),
      gpuId < 4 →
      env.DS_TSC_PTH_PATH = some prefixPath →
      torch.load (prefixPath ++ toString gpuId) = some model →
      env.DS_TSC_INPUTS = some inputs →
      layers ≠ [] →
      layers.length < uint32Size →
      (matchingIndexes (split inputs ',') layers).length < uint32Size →
      (∀ layer ∈ layers, ShapeReadable layer) →
      ForwardYieldsDetections torch (model.to (Device.cuda gpuId)) →
      ∃ deviceState1, ∃ out : Outcome NI DP OI,
        DsTrtTscBridgeDevice torch env now (deviceStateInit start) gpuId layers ni dp objs =
          some (deviceState1, out) ∧ out.ret = true) := by
  have hpost : ∀ state (out : Outcome NI DP OI),
      DsTrtTscPostProcess torch now state layers ni dp objs = some out → out.ret = true := by
    intro state out h
    obtain ⟨_, _, _, _, _, _, _, _, _, hret, _⟩ := postProcess_some h
    exact hret
  have hhost : ∀ state (out : Outcome NI DP OI),
      DsTrtTscBridgeHost torch env now state layers ni dp objs = some out → out.ret = true := by
    intro state out h
    rcases host_some h with ⟨_, state1, written, out1, _, hp, rfl⟩ | ⟨_, hp⟩
    · exact hpost _ out1 hp
    · exact hpost _ _ hp
  have hdev : ∀ deviceState gpuId deviceState1 (out : Outcome NI DP OI),
      DsTrtTscBridgeDevice torch env now deviceState gpuId layers ni dp objs =
        some (deviceState1, out) → out.ret = true := by
    intro deviceState gpuId deviceState1 out h
    obtain ⟨state, _, _, hcase⟩ := device_some h
    rcases hcase with ⟨_, state1, written, out1, _, hp, rfl⟩ | ⟨_, hp⟩
    · exact hpost _ out1 hp
    · exact hpost _ _ hp
  refine ⟨hpost, hhost, hdev, ?_, ?_, ?_⟩
  · intro state h1 h2 h3 h4 h5 h6
    obtain ⟨out, ho⟩ :=
      postProcess_returns_of_ready torch now state layers ni dp objs h1 h2 h3 h4 h5 h6
    exact ⟨out, ho, hpost _ _ ho⟩
  · intro start prefixPath inputs model h1 h2 h3 h4 h5 h6 h7
    obtain ⟨out, ho⟩ :=
      host_first_call_returns torch env now start layers ni dp objs h1 h2 h3 h4 h5 h6 h7
    exact ⟨out, ho, hhost _ _ ho⟩
  · intro start gpuId prefixPath inputs model hg h1 h2 h3 hne h4 h5 h6 h7
    have hslot : (deviceStateInit start)[gpuId]? = some (DeviceState.fresh start) := by
      unfold deviceStateInit
      rw [List.getElem?_replicate]
      simp [hg]
    obtain ⟨ds1, out, ho⟩ :=
      device_first_call_returns torch env now start (deviceStateInit start) gpuId layers ni dp
        objs hslot h1 h2 h3 hne h4 h5 h6 h7
    exact ⟨ds1, out, ho, hdev _ _ _ _ ho⟩

/-- Witness for C4: the host entry point returns `true` on a first call with
the sample inputs. -/
theorem return_value_always_true_witness :
    ∃ out : Outcome Unit Unit Nat,
      DsTrtTscBridgeHost sampleTorch sampleEnv 5 (DeviceState.fresh 0) sampleLayers () () [7, 9] =
        some out ∧ out.ret = true :=
  (return_value_always_true sampleTorch sampleEnv 5 sampleLayers () () [7, 9]).2.2.2.2.1
    0 "/models/tsc.pth." "boxes,scores" ⟨"/models/tsc.pth.0", Device.kCPU⟩
    rfl rfl rfl (by decide) (by decide) (by decide) (fun _ => ⟨_, _, rfl, rfl⟩)

/-- C5: the host's detection-object list is not transformed. After a call of
`DsTrtTscPostProcess`, `DsTrtTscBridgeHost` or `DsTrtTscBridgeDevice` the
object list is the one that was passed in, and so are the layer list, the
network info and the detection params, whatever the model returned. -/
theorem object_list_not_transformed {NI DP OI : Type} (torch : TorchRuntime)
    (env : Environment) (now : Int) (layers : List NvDsInferLayerInfo) (ni : NI) (dp : DP)
    (objs : List OI) :
    (∀ state (out : Outcome NI DP OI),
      DsTrtTscPostProcess torch now state layers ni dp objs = some out →
        out.batchObjectList = objs ∧ out.batchOutputLayersInfo = layers ∧
          out.networkInfo = ni ∧ out.detectionParams = dp) ∧
    (∀ state (out : Outcome NI DP OI),
      DsTrtTscBridgeHost torch env now state layers ni dp objs = some out →
        out.batchObjectList = objs ∧ out.batchOutputLayersInfo = layers ∧
          out.networkInfo = ni ∧ out.detectionParams = dp) ∧
    (∀ deviceState gpuId deviceState1 (out : Outcome NI DP OI),
      DsTrtTscBridgeDevice torch env now deviceState gpuId layers ni dp objs =
        some (deviceState1, out) →
        out.batchObjectList = objs ∧ out.batchOutputLayersInfo = layers ∧
          out.networkInfo = ni ∧ out.detectionParams = dp) := by
  have hpost : ∀ state (out : Outcome NI DP OI),
      DsTrtTscPostProcess torch now state layers ni dp objs = some out →
        out.batchObjectList = objs ∧ out.batchOutputLayersInfo = layers ∧
          out.networkInfo = ni ∧ out.detectionParams = dp := by
    intro state out h
    obtain ⟨_, _, _, _, _, _, _, _, _, _, h1, h2, h3, h4, _⟩ := postProcess_some h
    exact ⟨h1, h2, h3, h4⟩
  refine ⟨hpost, ?_, ?_⟩
  · intro state out h
    rcases host_some h with ⟨_, state1, written, out1, _, hp, rfl⟩ | ⟨_, hp⟩
    · exact hpost _ out1 hp
    · exact hpost _ _ hp
  · intro deviceState gpuId deviceState1 out h
    obtain ⟨state, _, _, hcase⟩ := device_some h
    rcases hcase with ⟨_, state1, written, out1, _, hp, rfl⟩ | ⟨_, hp⟩
    · exact hpost _ out1 hp
    · exact hpost _ _ hp

/-- Witness for C5: a first call for slot 2 on the sample inputs returns and
leaves the object list `[7, 9]` as it was. -/
theorem object_list_not_transformed_witness :
    ∃ deviceState1, ∃ out : Outcome Unit Unit Nat,
      DsTrtTscBridgeDevice sampleTorch sampleEnv 5 (deviceStateInit 0) 2 sampleLayers () ()
        [7, 9] = some (deviceState1, out) ∧ out.batchObjectList = [7, 9] := by
  obtain ⟨r, h⟩ := Option.isSome_iff_exists.mp
    (by decide :
      (DsTrtTscBridgeDevice sampleTorch sampleEnv 5 (deviceStateInit 0) 2 sampleLayers () ()
        [7, 9]).isSome = true)
  exact ⟨r.1, r.2, h,
    ((object_list_not_transformed sampleTorch sampleEnv 5 sampleLayers () () [7, 9]).2.2
      (deviceStateInit 0) 2 r.1 r.2 h).1⟩

/-- C2: the FPS counters reset every 128 accumulated frames. A returning call
of `DsTrtTscPostProcess` logs a statistics line and resets `detections` and
`profileFrameCount` exactly when the `profileFrameCount` it finds is at least
`fpsFramePeriod = 128`; the counter then restarts from the call's own frame
count. A call that does not reset logs nothing and adds its frame count
`batchDim` to `profileFrameCount` modulo `2 ^ 32`, where `batchDim` is `1`
without a dummy dimension and `inferDims.d[0]` of layer 0 with one. -/
theorem fps_counters_reset_period {NI DP OI : Type} (torch : TorchRuntime) (now : Int)
    (state : DeviceState) (layers : List NvDsInferLayerInfo) (ni : NI) (dp : DP)
    (objs : List OI) (out : Outcome NI DP OI)
    (h : DsTrtTscPostProcess torch now state layers ni dp objs = some out) :
    fpsFramePeriod = 128 ∧
    ∃ batchDim n,
      readBatchDim state layers = some batchDim ∧
      (state.hasDummyDim = false → batchDim = 1) ∧
      (state.hasDummyDim = true →
        ∃ layer d0, layers[0]? = some layer ∧ layer.inferDims.d[0]? = some d0 ∧
          batchDim = d0 % 2 ^ 32) ∧
      (out.stdout ≠ [] ↔ fpsFramePeriod ≤ state.profileFrameCount) ∧
      (fpsFramePeriod ≤ state.profileFrameCount →
        out.stdout = [LogEvent.stats state.device.index state.bufferCount
          state.profileFrameCount ((state.detections + n) % 2 ^ 32) (now - state.start)] ∧
        out.state.profileFrameCount = batchDim ∧ out.state.detections = 0) ∧
      (state.profileFrameCount < fpsFramePeriod →
        out.stdout = [] ∧
        out.state.profileFrameCount = (state.profileFrameCount + batchDim) % 2 ^ 32) := by
  obtain ⟨batchDim, _, _, n, hb, _, _, _, _, _, _, _, _, _, _, _, _, _, _, _, _, hreset, hkeep⟩ :=
    postProcess_some h
  refine ⟨rfl, batchDim, n, hb, ?_, ?_, ?_, ?_, ?_⟩
  · intro hd
    unfold readBatchDim at hb
    rw [hd] at hb
    simpa using hb.symm
  · intro hd
    unfold readBatchDim at hb
    rw [if_pos hd] at hb
    split at hb
    · exact absurd hb (by simp)
    · rename_i layer hl
      split at hb
      · exact absurd hb (by simp)
      · rename_i d0 hd0
        exact ⟨layer, d0, hl, hd0, (Option.some.inj hb).symm⟩
  · constructor
    · intro hne
      by_contra hlt
      exact hne (hkeep (by omega)).1
    · intro hge
      rw [(hreset hge).1]
      simp
  · intro hge
    obtain ⟨h1, h2, h3⟩ := hreset hge
    refine ⟨h1, ?_, h3⟩
    rw [h2]
    have hlt : batchDim < uint32Size := by
      unfold readBatchDim at hb
      split at hb
      · split at hb
        · exact absurd hb (by simp)
        · split at hb
          · exact absurd hb (by simp)
          · rw [← Option.some.inj hb]
            exact Nat.mod_lt _ (by decide)
      · rw [← Option.some.inj hb]
        decide
    exact Nat.mod_eq_of_lt hlt
  · intro hlt
    exact ⟨(hkeep hlt).1, (hkeep hlt).2.1⟩

/-- Witness for C2: with 128 frames accumulated the sample call logs and
resets. -/
theorem fps_counters_reset_period_witness :
    ∃ out : Outcome Unit Unit Nat,
      DsTrtTscPostProcess sampleTorch 5 (sampleState 128) sampleLayers () () [7, 9] = some out ∧
        (out.stdout ≠ [] ↔ fpsFramePeriod ≤ (sampleState 128).profileFrameCount) := by
  obtain ⟨out, h⟩ := Option.isSome_iff_exists.mp
    (by decide :
      (DsTrtTscPostProcess sampleTorch 5 (sampleState 128) sampleLayers () () [7, 9]).isSome =
        true)
  obtain ⟨_, _, _, _, _, _, hiff, _⟩ :=
    fps_counters_reset_period sampleTorch 5 (sampleState 128) sampleLayers () () [7, 9] out h
  exact ⟨out, h, hiff⟩

/-- C7, evaluated: `toTorchType` maps FLOAT, HALF and INT8 to scalar types of
the same kind and width, and maps INT32 to `kFloat32` through its final
`return`, a floating-point type where the host reported an integer one; the
buffer of an INT32 layer registered as input is then viewed as `kFloat32`. -/
theorem toTorchType_int32_viewed_as_float :
    toTorchType NvDsInferDataType.FLOAT = ScalarType.kFloat32 ∧
    toTorchType NvDsInferDataType.HALF = ScalarType.kFloat16 ∧
    toTorchType NvDsInferDataType.INT8 = ScalarType.kUInt8 ∧
    toTorchType NvDsInferDataType.INT32 = ScalarType.kFloat32 ∧
    (toTorchType NvDsInferDataType.INT32).kind = ElementKind.floating ∧
    NvDsInferDataType.INT32.kind = ElementKind.integer ∧
    (initHost sampleTorch { sampleEnv with DS_TSC_INPUTS := some "classes" } 5 0
        (DeviceState.fresh 0) sampleLayers).map
      (fun r => (r.1.inputLayerIndexes, r.1.inputLayerTypes)) =
        some ([2], [ScalarType.kFloat32]) ∧
    ((initHost sampleTorch { sampleEnv with DS_TSC_INPUTS := some "classes" } 5 0
        (DeviceState.fresh 0) sampleLayers).bind
      (fun r => gatherInputs r.1 sampleLayers 1)).map
      (fun inputTensors => inputTensors.map
        (fun v => match v with
          | IValue.Tensor t => some t.blobType
          | _ => none)) = some [some ScalarType.kFloat32] := by
  decide

/-- C9: `split` undoes joining on the delimiter. No token of `split s c`
contains `c`; the tokens joined with `c` give `s`, without its final `c` when
`s` ends with `c`; the number of tokens is the number of delimiters, plus one
when `s` is not empty and does not end with a delimiter (so only a trailing
empty field is dropped); and `split` of the empty string is empty. -/
theorem split_undoes_join (s : String) (c : Char) :
    (∀ t ∈ split s c, c ∉ t.data) ∧
    joinTokens c (split s c) =
      (if s.data.getLast? = some c then s.data.dropLast else s.data) ∧
    (split s c).length =
      s.data.count c + (if s.data = [] ∨ s.data.getLast? = some c then 0 else 1) ∧
    split "" c = [] := by
  obtain ⟨h1, h2, h3, _⟩ := split_spec s c
  exact ⟨h1, h2, h3, rfl⟩

/-- Witness for C9: the tokens of `",a,,b,"` joined with commas give
`",a,,b"`. -/
theorem split_undoes_join_witness :
    split ",a,,b," ',' = ["", "a", "", "b"] ∧
      joinTokens ',' (split ",a,,b," ',') = ",a,,b".data :=
  ⟨by decide, (split_undoes_join ",a,,b," ',').2.1.trans (by decide)⟩

/-- C10: input-layer resolution equals the reference definition and yields
only valid indexes. After the first call of `DsTrtTscBridgeHost`, or of
`DsTrtTscBridgeDevice` for a slot, with expected names `N` (the comma-split
value of `DS_TSC_INPUTS`) and layer list `L`, `inputLayerIndexes` is
`matchingIndexes N L`, `inputLayerTypes` has the same length with entry `j`
equal to `toTorchType` of the data type of layer `inputLayerIndexes[j]`, every
index is less than the length of `L`, and the layer lookups of
`DsTrtTscPostProcess` succeed on every layer list at least as long as `L`. -/
theorem input_layer_resolution {NI DP OI : Type} (torch : TorchRuntime) (env : Environment)
    (now start : Int) (layers : List NvDsInferLayerInfo) (ni : NI) (dp : DP) (objs : List OI) :
    (∀ out : Outcome NI DP OI,
      DsTrtTscBridgeHost torch env now (DeviceState.fresh start) layers ni dp objs = some out →
        ∃ inputs, env.DS_TSC_INPUTS = some inputs ∧
          ResolvedAgainst (split inputs ',') layers out.state) ∧
    (∀ (deviceState deviceState1 : List DeviceState) (gpuId : Nat) (out : Outcome NI DP OI),
      deviceState[gpuId]? = some (DeviceState.fresh start) →
      DsTrtTscBridgeDevice torch env now deviceState gpuId layers ni dp objs =
        some (deviceState1, out) →
        ∃ inputs, env.DS_TSC_INPUTS = some inputs ∧
          ResolvedAgainst (split inputs ',') layers out.state) := by
  constructor
  · intro out h
    obtain ⟨_, inputs, _, hi, _, _, _, hidx, htyp⟩ := host_first_call_state h
    exact ⟨inputs, hi, resolved_of_init hidx htyp⟩
  · intro deviceState deviceState1 gpuId out hslot h
    obtain ⟨_, inputs, _, hi, _, _, _, hidx, htyp⟩ := device_first_call_state hslot h
    exact ⟨inputs, hi, resolved_of_init hidx htyp⟩

/-- Witness for C10: on the sample inputs the names `boxes,scores` resolve to
the layers 1 and 0. -/
theorem input_layer_resolution_witness :
    ∃ out : Outcome Unit Unit Nat,
      DsTrtTscBridgeHost sampleTorch sampleEnv 5 (DeviceState.fresh 0) sampleLayers () ()
        [7, 9] = some out ∧
      ResolvedAgainst ["boxes", "scores"] sampleLayers out.state ∧
      out.state.inputLayerIndexes = [1, 0] := by
  obtain ⟨out, h⟩ := Option.isSome_iff_exists.mp
    (by decide :
      (DsTrtTscBridgeHost sampleTorch sampleEnv 5 (DeviceState.fresh 0) sampleLayers () ()
        ([7, 9] : List Nat)).isSome = true)
  obtain ⟨inputs, hi, hres⟩ :=
    (input_layer_resolution sampleTorch sampleEnv 5 0 sampleLayers () () [7, 9]).1 out h
  have hin : inputs = "boxes,scores" := (Option.some.inj hi).symm
  subst hin
  have hs : split "boxes,scores" ',' = ["boxes", "scores"] := by decide
  rw [hs] at hres
  exact ⟨out, h, hres, hres.1.trans (by decide)⟩

/-- C6, counterexample: with `DS_TSC_INPUTS = "boxes,missing"` and the sample
layers, which have no layer called `missing`, the first call returns with a
single registered input for two expected names. -/
theorem one_entry_per_name_fails :
    ∃ out : Outcome Unit Unit Nat,
      DsTrtTscBridgeHost sampleTorch { sampleEnv with DS_TSC_INPUTS := some "boxes,missing" } 5
        (DeviceState.fresh 0) sampleLayers () () [7, 9] = some out ∧
      split "boxes,missing" ',' = ["boxes", "missing"] ∧
      out.state.inputLayerIndexes = [1] ∧
      ¬ OneEntryPerName (split "boxes,missing" ',') sampleLayers out.state := by
  obtain ⟨out, h⟩ := Option.isSome_iff_exists.mp
    (by decide :
      (DsTrtTscBridgeHost sampleTorch { sampleEnv with DS_TSC_INPUTS := some "boxes,missing" } 5
        (DeviceState.fresh 0) sampleLayers () () ([7, 9] : List Nat)).isSome = true)
  have hidx : out.state.inputLayerIndexes = [1] := by
    have hm :
        (DsTrtTscBridgeHost sampleTorch { sampleEnv with DS_TSC_INPUTS := some "boxes,missing" }
          5 (DeviceState.fresh 0) sampleLayers () () ([7, 9] : List Nat)).map
            (fun o => o.state.inputLayerIndexes) = some [1] := by decide
    rw [h] at hm
    exact Option.some.inj hm
  have hs : split "boxes,missing" ',' = ["boxes", "missing"] := by decide
  refine ⟨out, h, hs, hidx, ?_⟩
  intro hone
  have hlen := hone.1
  rw [hidx, hs] at hlen
  exact absurd hlen (by decide)

/-- C6, amended: when every expected name is the name of exactly one layer of
the list passed to the first call, initialization leaves exactly one entry per
expected name in `inputLayerIndexes` and `inputLayerTypes`, in the order of the
names: entry `i` of `inputLayerIndexes` is the index of the layer whose
`layerName` is the `i`-th name, and entry `i` of `inputLayerTypes` is
`toTorchType` of that layer's `dataType`. -/
theorem one_entry_per_unique_name {NI DP OI : Type} (torch : TorchRuntime)
    (env : Environment) (now start : Int) (layers : List NvDsInferLayerInfo) (ni : NI) (dp : DP)
    (objs : List OI) (inputs : String)
    (hi : env.DS_TSC_INPUTS = some inputs)
    (hu : ∀ name ∈ split inputs ',', ∃ (i : Nat) (layer : NvDsInferLayerInfo),
      layers[i]? = some layer ∧ layer.layerName = name ∧
      ∀ (j : Nat) (layer2 : NvDsInferLayerInfo),
        layers[j]? = some layer2 → layer2.layerName = name → j = i) :
    (∀ out : Outcome NI DP OI,
      DsTrtTscBridgeHost torch env now (DeviceState.fresh start) layers ni dp objs = some out →
        OneEntryPerName (split inputs ',') layers out.state) ∧
    (∀ (deviceState deviceState1 : List DeviceState) (gpuId : Nat) (out : Outcome NI DP OI),
      deviceState[gpuId]? = some (DeviceState.fresh start) →
      DsTrtTscBridgeDevice torch env now deviceState gpuId layers ni dp objs =
        some (deviceState1, out) →
        OneEntryPerName (split inputs ',') layers out.state) := by
  have key : ∀ state : DeviceState,
      state.inputLayerIndexes = matchingIndexes (split inputs ',') layers →
      state.inputLayerTypes =
        (matchingIndexes (split inputs ',') layers).map (recordedType layers) →
      OneEntryPerName (split inputs ',') layers state := by
    intro state hidx htyp
    obtain ⟨hlen, hget⟩ := matchingIndexes_unique (split inputs ',') layers hu
    refine ⟨by rw [hidx, hlen], by rw [htyp, List.length_map, hlen], ?_⟩
    intro i name hname
    obtain ⟨idx, layer, h1, h2, h3⟩ := hget i name hname
    refine ⟨idx, layer, by rw [hidx]; exact h1, h2, h3, ?_⟩
    rw [htyp, List.getElem?_map, h1]
    simp [recordedType, h2]
  constructor
  · intro out h
    obtain ⟨_, inputs2, _, hi2, _, _, _, hidx, htyp⟩ := host_first_call_state h
    have he : inputs2 = inputs := by rw [hi] at hi2; exact (Option.some.inj hi2).symm
    subst he
    exact key _ hidx htyp
  · intro deviceState deviceState1 gpuId out hslot h
    obtain ⟨_, inputs2, _, hi2, _, _, _, hidx, htyp⟩ := device_first_call_state hslot h
    have he : inputs2 = inputs := by rw [hi] at hi2; exact (Option.some.inj hi2).symm
    subst he
    exact key _ hidx htyp

/-- Witness for the amended C6: the sample names `boxes,scores` each name one
sample layer, and the first call registers one input per name. -/
theorem one_entry_per_unique_name_witness :
    ∃ out : Outcome Unit Unit Nat,
      DsTrtTscBridgeHost sampleTorch sampleEnv 5 (DeviceState.fresh 0) sampleLayers () ()
        [7, 9] = some out ∧
      OneEntryPerName (split "boxes,scores" ',') sampleLayers out.state := by
  obtain ⟨out, h⟩ := Option.isSome_iff_exists.mp
    (by decide :
      (DsTrtTscBridgeHost sampleTorch sampleEnv 5 (DeviceState.fresh 0) sampleLayers () ()
        ([7, 9] : List Nat)).isSome = true)
  refine ⟨out, h,
    (one_entry_per_unique_name sampleTorch sampleEnv 5 0 sampleLayers () () [7, 9]
      "boxes,scores" rfl ?_).1 out h⟩
  have hs : split "boxes,scores" ',' = ["boxes", "scores"] := by decide
  rw [hs]
  intro name hname
  simp only [List.mem_cons, List.mem_singleton, List.not_mem_nil, or_false] at hname
  rcases hname with rfl | rfl
  · refine ⟨1, sampleLayer "boxes" NvDsInferDataType.HALF 3, by decide, rfl, ?_⟩
    intro j layer2 hj hn
    have hlt : j < 3 := (List.getElem?_eq_some_iff.mp hj).1
    interval_cases j
    · simp [sampleLayers] at hj; subst hj; simp [sampleLayer] at hn
    · rfl
    · simp [sampleLayers] at hj; subst hj; simp [sampleLayer] at hn
  · refine ⟨0, sampleLayer "scores" NvDsInferDataType.FLOAT 3, by decide, rfl, ?_⟩
    intro j layer2 hj hn
    have hlt : j < 3 := (List.getElem?_eq_some_iff.mp hj).1
    interval_cases j
    · rfl
    · simp [sampleLayers] at hj; subst hj; simp [sampleLayer] at hn
    · simp [sampleLayers] at hj; subst hj; simp [sampleLayer] at hn

/-- C8: in host mode the log/reset period is exactly 128 frames. For a run of
calls of `DsTrtTscPostProcess` that starts on a state with
`profileFrameCount = 0` and `hasDummyDim = false`, the `k`-th call (counting
from 1) logs and resets the counters if and only if `k > 1` and `k - 1` is a
multiple of 128; every statistics line reports exactly 128 frames; and after
every call `profileFrameCount` is between 1 and 128, being 1 right after a
reset. -/
theorem host_mode_period {NI DP OI : Type} (torch : TorchRuntime) (state final : DeviceState)
    (calls : List (Call NI DP OI)) (outs : List (Outcome NI DP OI))
    (hfresh : state.profileFrameCount = 0) (hdummy : state.hasDummyDim = false)
    (hrun : runPostProcess torch state calls = some (final, outs)) :
    outs.length = calls.length ∧
    ∀ (k : Nat) (out : Outcome NI DP OI), 1 ≤ k → outs[k - 1]? = some out →
      (out.stdout ≠ [] ↔ (1 < k ∧ (k - 1) % 128 = 0)) ∧
      (∀ gpuId bufferCount frames detections elapsed,
        LogEvent.stats gpuId bufferCount frames detections elapsed ∈ out.stdout →
          frames = 128) ∧
      (out.stdout ≠ [] → out.state.detections = 0 ∧ out.state.profileFrameCount = 1) ∧
      1 ≤ out.state.profileFrameCount ∧ out.state.profileFrameCount ≤ 128 := by
  obtain ⟨hlen, hget⟩ := period_run calls 0 state final outs hdummy (by rw [hfresh]; rfl) hrun
  refine ⟨hlen, ?_⟩
  intro k out hk hout
  obtain ⟨h1, h2, h3, h4⟩ := hget (k - 1) out hout
  have hfa : framesAfter (0 + (k - 1) + 1) = (k - 1) % 128 + 1 := by simp [framesAfter]
  rw [hfa] at h4
  refine ⟨?_, h2, ?_, by omega, by omega⟩
  · rw [h1]
    constructor
    · rintro ⟨a, b⟩; exact ⟨by omega, by omega⟩
    · rintro ⟨a, b⟩; exact ⟨by omega, by omega⟩
  · intro hne
    refine ⟨h3 hne, ?_⟩
    have := h1.mp hne
    omega

/-- Witness for C8: in a run of 130 single-frame calls from a fresh state the
129th call logs and resets. -/
theorem host_mode_period_witness :
    ∃ (final : DeviceState) (outs : List (Outcome Unit Unit Nat)) (out : Outcome Unit Unit Nat),
      runPostProcess sampleTorch (sampleState 0) (List.replicate 130 (sampleCall 0)) =
        some (final, outs) ∧
      outs[129 - 1]? = some out ∧ (out.stdout ≠ [] ↔ (1 < 129 ∧ (129 - 1) % 128 = 0)) := by
  obtain ⟨r, h⟩ := Option.isSome_iff_exists.mp
    (by decide :
      (runPostProcess sampleTorch (sampleState 0)
        (List.replicate 130 (sampleCall 0))).isSome = true)
  obtain ⟨hlen, hget⟩ :=
    host_mode_period sampleTorch (sampleState 0) r.1 (List.replicate 130 (sampleCall 0)) r.2
      rfl rfl h
  have hlt : 129 - 1 < r.2.length := by rw [hlen]; simp
  exact ⟨r.1, r.2, r.2[129 - 1], h, List.getElem?_eq_getElem hlt,
    (hget 129 _ (by decide) (List.getElem?_eq_getElem hlt)).1⟩

/-- C3: the detection count equals the size of the first dimension of the
first output tensor. A returning call of `DsTrtTscPostProcess` reads `n`, the
first dimension of the tensor that heads the tuple returned by the model, and
adds it modulo `2 ^ 32` to `detections` before the period check: the value
logged at a reset is the old count plus `n`, which after a run of calls that
did not log is the count the run started with (zero for a fresh state and
after a reset) plus the sum of `n` over every call of the run, the logging
call included; on return `detections` is old plus `n` when no reset happens
and `0` when one does. -/
theorem detections_count_first_output_dim {NI DP OI : Type} (torch : TorchRuntime)
    (state mid : DeviceState) (pre : List (Call NI DP OI)) (outs : List (Outcome NI DP OI))
    (c : Call NI DP OI) (out : Outcome NI DP OI)
    (hrun : runPostProcess torch state pre = some (mid, outs))
    (hquiet : ∀ o ∈ outs, o.stdout = [])
    (hcall : DsTrtTscPostProcess torch c.now mid c.batchOutputLayersInfo c.networkInfo
      c.detectionParams c.batchObjectList = some out) :
    ∃ (ns : List Nat) (n : Nat) (inputTensors : List IValue) (t : Tensor) (rest : List IValue),
      pre.map (callDetections torch state) = ns.map some ∧
      callDetections torch state c = some n ∧
      gatherInputs mid c.batchOutputLayersInfo mid.inputLayerIndexes.length =
        some inputTensors ∧
      torch.forward mid.model inputTensors = some (IValue.Tuple (IValue.Tensor t :: rest)) ∧
      t.sizes[0]? = some n ∧
      (mid.detections + n) % 2 ^ 32 = (state.detections + ns.sum + n) % 2 ^ 32 ∧
      (fpsFramePeriod ≤ mid.profileFrameCount →
        out.stdout = [LogEvent.stats mid.device.index mid.bufferCount mid.profileFrameCount
          ((mid.detections + n) % 2 ^ 32) (c.now - mid.start)] ∧
        out.state.detections = 0) ∧
      (mid.profileFrameCount < fpsFramePeriod →
        out.stdout = [] ∧ out.state.detections = (mid.detections + n) % 2 ^ 32) := by
  obtain ⟨ns, hns, hsum, hi, ht, hs, hd, hm⟩ := quiet_run pre state mid outs hrun hquiet
  obtain ⟨_, inputTensors, result, n, _, _, hg, hf, hn, _, _, _, _, _, _, _, _, _, _, _, _,
    hreset, hkeep⟩ := postProcess_some hcall
  obtain ⟨t, rest, hres, ht0⟩ := firstOutputDim_some hn
  subst hres
  refine ⟨ns, n, inputTensors, t, rest, hns, ?_, hg, hf, ht0, hsum n, ?_, ?_⟩
  · rw [← callDetections_congr hi ht hs hd hm c]
    unfold callDetections
    rw [hg]
    simp only
    rw [hf]
    exact hn
  · intro hge
    exact ⟨(hreset hge).1, (hreset hge).2.2⟩
  · intro hlt
    exact ⟨(hkeep hlt).1, (hkeep hlt).2.2⟩

/-- Witness for C3: from 40 detections and 127 frames, a call with three
detections that does not log and a second one that does; the line logged
reports 40 + 3 + 3 detections. -/
theorem detections_count_first_output_dim_witness :
    ∃ (mid : DeviceState) (outs : List (Outcome Unit Unit Nat)) (out : Outcome Unit Unit Nat),
      runPostProcess sampleTorch (sampleState 127) [sampleCall 0] = some (mid, outs) ∧
      DsTrtTscPostProcess sampleTorch 10 mid sampleLayers () () [7, 9] = some out ∧
      out.stdout = [LogEvent.stats 0 1 128 46 10] ∧ out.state.detections = 0 := by
  obtain ⟨r, h⟩ := Option.isSome_iff_exists.mp
    (by decide :
      (runPostProcess sampleTorch (sampleState 127) [sampleCall 0]).isSome = true)
  have hq : (runPostProcess sampleTorch (sampleState 127) [sampleCall 0]).map
      (fun r => (r.2.map (fun o => o.stdout), r.1.profileFrameCount, r.1.detections,
        r.1.bufferCount, r.1.device.index, r.1.start)) = some ([[]], 128, 43, 1, 0, 0) := by
    decide
  rw [h] at hq
  simp only [Option.map_some', Option.some.injEq, Prod.mk.injEq] at hq
  obtain ⟨hq1, hq2, hq3, hq4, hq5, hq6⟩ := hq
  have hquiet : ∀ o ∈ r.2, o.stdout = [] := by
    intro o ho
    have : o.stdout ∈ r.2.map (fun o => o.stdout) := List.mem_map_of_mem _ ho
    rw [hq1] at this
    simpa using this
  obtain ⟨out, hcall⟩ := Option.isSome_iff_exists.mp
    (by
      have : ((runPostProcess sampleTorch (sampleState 127) [sampleCall 0]).bind
          (fun r => DsTrtTscPostProcess sampleTorch 10 r.1 sampleLayers () ()
            ([7, 9] : List Nat))).isSome = true := by decide
      rw [h] at this
      exact this :
      (DsTrtTscPostProcess sampleTorch 10 r.1 sampleLayers () () ([7, 9] : List Nat)).isSome =
        true)
  obtain ⟨ns, n, _, _, _, hns, hn, _, _, _, hsum, hreset, _⟩ :=
    detections_count_first_output_dim sampleTorch (sampleState 127) r.1 [sampleCall 0] r.2
      (sampleCall 0) out h hquiet hcall
  have hn3 : n = 3 := by
    have : callDetections sampleTorch (sampleState 127) (sampleCall 0) = some 3 := by decide
    rw [this] at hn
    exact (Option.some.inj hn).symm
  subst hn3
  obtain ⟨hlog, hzero⟩ := hreset (by rw [hq2]; decide)
  refine ⟨r.1, r.2, out, h, hcall, ?_, hzero⟩
  rw [hlog, hq2, hq3, hq4, hq5, hq6]
  rfl

/-- C1: initialization happens exactly once per device slot. In every run of
calls of `DsTrtTscBridgeDevice` that starts with the four default-constructed
slots, each call is for a slot `gpuId < 4`; the initialization block (whose
`Loading downstream model` line is the trace of it) runs on a call exactly
when no earlier call was made for the same slot; after every call the device
of the slot is the CUDA device of that `gpuId`, which is not the CPU sentinel;
and the registered input indexes and types of the slot are after every later
call what they were after an earlier one. The same holds for the single state
of `DsTrtTscBridgeHost`, whose block runs on the first call only, and
`DsTrtTscPostProcess` never changes the device field. -/
theorem initialization_once_per_slot {NI DP OI : Type} (torch : TorchRuntime) (start : Int)
    (calls : List (Call NI DP OI)) :
    (∀ (final : List DeviceState) (outs : List (Outcome NI DP OI)),
      runDevice torch (deviceStateInit start) calls = some (final, outs) →
      outs.length = calls.length ∧
      ∀ (k : Nat) (c : Call NI DP OI) (out : Outcome NI DP OI),
        calls[k]? = some c → outs[k]? = some out →
        c.gpuId < 4 ∧
        ((∃ p, LogEvent.loading p ∈ out.stdout) ↔
          ∀ (j : Nat) (cj : Call NI DP OI), j < k → calls[j]? = some cj →
            cj.gpuId ≠ c.gpuId) ∧
        out.state.device = Device.cuda c.gpuId ∧ out.state.device ≠ Device.kCPU ∧
        ∀ (j : Nat) (cj : Call NI DP OI) (oj : Outcome NI DP OI), j < k →
          calls[j]? = some cj → outs[j]? = some oj → cj.gpuId = c.gpuId →
          out.state.inputLayerIndexes = oj.state.inputLayerIndexes ∧
            out.state.inputLayerTypes = oj.state.inputLayerTypes) ∧
    (∀ (final : DeviceState) (outs : List (Outcome NI DP OI)),
      runHost torch (DeviceState.fresh start) calls = some (final, outs) →
      outs.length = calls.length ∧
      ∀ (k : Nat) (out : Outcome NI DP OI), outs[k]? = some out →
        ((∃ p, LogEvent.loading p ∈ out.stdout) ↔ k = 0) ∧
        out.state.device = Device.cuda 0 ∧ out.state.device ≠ Device.kCPU ∧
        ∀ (j : Nat) (oj : Outcome NI DP OI), j < k → outs[j]? = some oj →
          out.state.inputLayerIndexes = oj.state.inputLayerIndexes ∧
            out.state.inputLayerTypes = oj.state.inputLayerTypes) ∧
    (∀ (now : Int) (state : DeviceState) (layers : List NvDsInferLayerInfo) (ni : NI) (dp : DP)
      (objs : List OI) (out : Outcome NI DP OI),
      DsTrtTscPostProcess torch now state layers ni dp objs = some out →
        out.state.device = state.device ∧
        out.state.inputLayerIndexes = state.inputLayerIndexes ∧
        out.state.inputLayerTypes = state.inputLayerTypes) := by
  refine ⟨?_, ?_, ?_⟩
  · intro final outs hrun
    have hinv : ∀ (g : Nat) (s : DeviceState), (deviceStateInit start)[g]? = some s →
        s.device = Device.kCPU ∨ s.device = Device.cuda g := by
      intro g s hg
      unfold deviceStateInit at hg
      rw [List.getElem?_replicate] at hg
      split at hg
      · left; rw [← Option.some.inj hg]; rfl
      · cases hg
    obtain ⟨hlen, hget⟩ := device_run calls (deviceStateInit start) final outs hinv hrun
    refine ⟨hlen, ?_⟩
    intro k c out hc hout
    obtain ⟨s0, hs0, hload, hdev, _, hsame⟩ := hget k c out hc hout
    have hs0' := hs0
    unfold deviceStateInit at hs0'
    rw [List.getElem?_replicate] at hs0'
    split at hs0'
    · rename_i hlt
      have hcpu : s0.device = Device.kCPU := by rw [← Option.some.inj hs0']; rfl
      refine ⟨hlt, ?_, hdev, by rw [hdev]; exact cuda_ne_kCPU _, hsame⟩
      rw [hload]
      exact ⟨fun hh => hh.2, fun hh => ⟨hcpu, hh⟩⟩
    · cases hs0'
  · intro final outs hrun
    obtain ⟨hlen, hget⟩ :=
      host_run calls (DeviceState.fresh start) final outs (Or.inl rfl) hrun
    refine ⟨hlen, ?_⟩
    intro k out hout
    obtain ⟨hload, hdev, _, hsame⟩ := hget k out hout
    refine ⟨?_, hdev, by rw [hdev]; exact cuda_ne_kCPU _, hsame⟩
    rw [hload]
    exact ⟨fun hh => hh.2, fun hh => ⟨rfl, hh⟩⟩
  · intro now state layers ni dp objs out h
    obtain ⟨_, _, _, _, _, _, _, _, _, _, _, _, _, _, hd, _, _, _, hi, ht, _⟩ :=
      postProcess_some h
    exact ⟨hd, hi, ht⟩

/-- Witness for C1: calls for the slots 1, 2, 1; the third call, the second
one for slot 1, does not run the initialization block and leaves the device
of the slot at CUDA device 1. -/
theorem initialization_once_per_slot_witness :
    ∃ (final : List DeviceState) (outs : List (Outcome Unit Unit Nat))
      (out : Outcome Unit Unit Nat),
      runDevice sampleTorch (deviceStateInit 0) [sampleCall 1, sampleCall 2, sampleCall 1] =
        some (final, outs) ∧
      outs[2]? = some out ∧
      (¬ ∃ p, LogEvent.loading p ∈ out.stdout) ∧ out.state.device = Device.cuda 1 := by
  obtain ⟨r, h⟩ := Option.isSome_iff_exists.mp
    (by decide :
      (runDevice sampleTorch (deviceStateInit 0)
        [sampleCall 1, sampleCall 2, sampleCall 1]).isSome = true)
  obtain ⟨hlen, hget⟩ :=
    (initialization_once_per_slot sampleTorch 0 [sampleCall 1, sampleCall 2, sampleCall 1]).1
      r.1 r.2 h
  have hlt : 2 < r.2.length := by rw [hlen]; decide
  obtain ⟨_, hload, hdev, _, _⟩ :=
    hget 2 (sampleCall 1) r.2[2] rfl (List.getElem?_eq_getElem hlt)
  refine ⟨r.1, r.2, r.2[2], h, List.getElem?_eq_getElem hlt, ?_, hdev⟩
  intro hl
  exact hload.mp hl 0 (sampleCall 1) (by decide) rfl rfl

end DsTrtTscBridge
